import Mathlib

/-! Wax-injection dashboard: derived metrics.

A shallow embedding of the calculation and polling code of the dashboard
(`src/Components/Calculator/Calculator.js`,
`src/Components/CylinderStatus/CylinderStatus.js`,
`src/Components/EnergyManagement/EM.js`, `src/WaxInjectorDashboard.js`) and the
properties of it that the specification states.

A JavaScript number is modelled by a rational, and a value that is not a
finite number (`NaN`, or the result of a division by zero) by `none`. The
functions are given over exact arithmetic. Where the rounding of IEEE doubles
changes what a property says, the function is given in double-precision
arithmetic, in which every operation yields the double nearest to the exact
result: the calculator has both forms, the line chart the second one.
-/

namespace WaxInjection

/-! ## JavaScript numbers -/

/-- A JavaScript number: `some q` is the finite value `q`, `none` is a value
that is not finite. In the code modelled here the only such value that can
arise is `NaN` (from `parseInt`); a division by zero would give one too. -/
abbrev JsNum := Option ℚ

/-- An integer as a JavaScript number. -/
def JsNum.ofInt (n : Int) : JsNum := some (n : ℚ)

/-- JavaScript `a / b`: not finite when an operand is not, or when `b` is zero. -/
def jsDiv (a b : JsNum) : JsNum :=
  match a, b with
  | some x, some y => if y = 0 then none else some (x / y)
  | _, _ => none

/-- JavaScript `a * b` on finite values; `NaN` is contagious. -/
def jsMul (a b : JsNum) : JsNum :=
  match a, b with
  | some x, some y => some (x * y)
  | _, _ => none

/-- JavaScript `a + b` on finite values; `NaN` is contagious. -/
def jsAdd (a b : JsNum) : JsNum :=
  match a, b with
  | some x, some y => some (x + y)
  | _, _ => none

/-- `Math.max(a, b)`: `NaN` when an argument is `NaN`. -/
def mathMax (a b : JsNum) : JsNum :=
  match a, b with
  | some x, some y => some (max x y)
  | _, _ => none

/-- `Math.min(a, b)`: `NaN` when an argument is `NaN`. -/
def mathMin (a b : JsNum) : JsNum :=
  match a, b with
  | some x, some y => some (min x y)
  | _, _ => none

/-- JavaScript `a || d` on numbers: `d` when `a` is falsy, that is `NaN` or zero. -/
def jsOr (a d : JsNum) : JsNum :=
  match a with
  | none => d
  | some x => if x = 0 then d else some x

/-! ## parseInt -/

/-- The characters `parseInt` skips at the start of its input (white space and
line terminators of ECMAScript), by code point. -/
def isStrWhiteSpaceChar (c : Char) : Bool :=
  let n := c.toNat
  n = 9 || n = 10 || n = 11 || n = 12 || n = 13 || n = 32 || n = 160 || n = 5760 ||
  (8192 ≤ n && n ≤ 8202) || n = 8232 || n = 8233 || n = 8239 || n = 8287 ||
  n = 12288 || n = 65279

/-- The value of a character as a digit (`0`-`9`, `a`-`z`, `A`-`Z`), if it is one. -/
def digitValue (c : Char) : Option Nat :=
  let n := c.toNat
  if 48 ≤ n ∧ n ≤ 57 then some (n - 48)
  else if 97 ≤ n ∧ n ≤ 122 then some (n - 87)
  else if 65 ≤ n ∧ n ≤ 90 then some (n - 55)
  else none

/-- The values of the longest prefix made of digits of radix `R`. -/
def radixDigits (R : Nat) : List Char → List Nat
  | [] => []
  | c :: cs =>
    match digitValue c with
    | some d => if d < R then d :: radixDigits R cs else []
    | none => []

/-- The integer written by a list of digits in radix `R`. -/
def mathInt (R : Nat) (ds : List Nat) : Nat :=
  ds.foldl (fun acc d => acc * R + d) 0

/-- The result of `parseInt` on the characters left after the sign: a `0x` or
`0X` prefix selects radix 16, otherwise the radix is 10; `none` (`NaN`) when no
digit follows. -/
def parseDigits (cs : List Char) : Option Nat :=
  let (R, body) :=
    match cs with
    | a :: b :: rest =>
      if a.toNat = 48 ∧ (b.toNat = 120 ∨ b.toNat = 88) then (16, rest) else (10, cs)
    | _ => (10, cs)
  match radixDigits R body with
  | [] => none
  | ds => some (mathInt R ds)

/-- JavaScript `parseInt(s)` without a radix argument: `none` is `NaN`. -/
def parseInt (s : String) : Option Int :=
  match s.toList.dropWhile isStrWhiteSpaceChar with
  | [] => none
  | c :: cs =>
    if c.toNat = 45 then (parseDigits cs).map (fun n => -(n : Int))
    else if c.toNat = 43 then (parseDigits cs).map (fun n => (n : Int))
    else (parseDigits (c :: cs)).map (fun n => (n : Int))

/-- The idiom `parseInt(s) || d` with an integer default: `d` when the parse is
`NaN` or zero. -/
def parseIntOr (s : String) (d : Int) : Int :=
  match parseInt s with
  | none => d
  | some n => if n = 0 then d else n

/-! ## toFixed(2) -/

/-- The digits of `n` in base 10, padded with zeros on the left to at least
three characters, with a point before the last two. -/
def fixedDigits (n : Nat) : String :=
  let m := (Nat.repr n).toList
  let m := List.replicate (3 - m.length) (Char.ofNat 48) ++ m
  String.mk (m.take (m.length - 2) ++ [Char.ofNat 46] ++ m.drop (m.length - 2))

/-- `x.toFixed(2)` for a finite `x` below `10^21` in magnitude: the integer `n`
nearest to `100 * |x|` (the larger one on a tie), written with two decimals,
after a minus sign when `x` is negative. A value that is not finite prints as
`NaN`. -/
def toFixed2 : JsNum → String
  | none => "NaN"
  | some x =>
    let n := (Rat.floor (|x| * 100 + 1 / 2)).toNat
    (if x < 0 then "-" else "") ++ fixedDigits n

/-! ## Power-loss calculator (`Calculator.js`) -/

/-- Constant `TOTAL_POWER_TIME` of `PowerCalculator`, in minutes. -/
def TOTAL_POWER_TIME : Int := 480

/-- Constant `REGULAR_BREAK_TIME` of `PowerCalculator`, in minutes. -/
def REGULAR_BREAK_TIME : Int := 60

/-- The local constants of `calculatePowerLoss`, before any rounding. -/
structure PowerLossValues where
  goodCount : Int
  scrapCount : Int
  emergencyBreak : Int
  totalProducts : Int
  scrapPercentage : JsNum
  totalBreakTime : Int
  effectiveWorkingTime : Int
  goodProductPowerTime : JsNum
  scrapPowerLoss : JsNum
  emergencyBreakPowerLoss : Int
  totalPowerLoss : JsNum
  powerEfficiency : JsNum
  deriving DecidableEq

/-- The object `calculatePowerLoss` passes to `setResults`: the ratios are the
strings produced by `toFixed(2)`. -/
structure Results where
  totalProducts : Int
  scrapPercentage : String
  effectiveWorkingTime : Int
  goodProductPowerTime : String
  scrapPowerLoss : String
  emergencyBreakPowerLoss : Int
  totalPowerLoss : String
  powerEfficiency : String
  totalBreakTime : Int
  deriving DecidableEq

/-- The body of `calculatePowerLoss` up to the call of `setResults`, on the
three input strings of the form. -/
def calculatePowerLossValues (goodProducts scrapProducts emergencyBreakTime : String) :
    PowerLossValues :=
  let goodCount := parseIntOr goodProducts 0
  let scrapCount := parseIntOr scrapProducts 0
  let emergencyBreak := parseIntOr emergencyBreakTime 0
  let totalProducts := goodCount + scrapCount
  let scrapPercentage :=
    if totalProducts > 0 then
      jsMul (jsDiv (JsNum.ofInt scrapCount) (JsNum.ofInt totalProducts)) (some 100)
    else some 0
  let totalBreakTime := REGULAR_BREAK_TIME + emergencyBreak
  let effectiveWorkingTime := TOTAL_POWER_TIME - totalBreakTime
  let goodProductPowerTime :=
    if totalProducts > 0 then
      jsMul (jsDiv (JsNum.ofInt goodCount) (JsNum.ofInt totalProducts))
        (JsNum.ofInt effectiveWorkingTime)
    else some 0
  let scrapPowerLoss :=
    if totalProducts > 0 then
      jsMul (jsDiv (JsNum.ofInt scrapCount) (JsNum.ofInt totalProducts))
        (JsNum.ofInt effectiveWorkingTime)
    else some 0
  let emergencyBreakPowerLoss := emergencyBreak
  let totalPowerLoss := jsAdd scrapPowerLoss (JsNum.ofInt emergencyBreakPowerLoss)
  let powerEfficiency :=
    if effectiveWorkingTime > 0 then
      jsMul (jsDiv goodProductPowerTime (JsNum.ofInt effectiveWorkingTime)) (some 100)
    else some 0
  { goodCount := goodCount
    scrapCount := scrapCount
    emergencyBreak := emergencyBreak
    totalProducts := totalProducts
    scrapPercentage := scrapPercentage
    totalBreakTime := totalBreakTime
    effectiveWorkingTime := effectiveWorkingTime
    goodProductPowerTime := goodProductPowerTime
    scrapPowerLoss := scrapPowerLoss
    emergencyBreakPowerLoss := emergencyBreakPowerLoss
    totalPowerLoss := totalPowerLoss
    powerEfficiency := powerEfficiency }

/-- The function `calculatePowerLoss`: the new value of the state `results`. -/
def calculatePowerLoss (goodProducts scrapProducts emergencyBreakTime : String) : Results :=
  let v := calculatePowerLossValues goodProducts scrapProducts emergencyBreakTime
  { totalProducts := v.totalProducts
    scrapPercentage := toFixed2 v.scrapPercentage
    effectiveWorkingTime := v.effectiveWorkingTime
    goodProductPowerTime := toFixed2 v.goodProductPowerTime
    scrapPowerLoss := toFixed2 v.scrapPowerLoss
    emergencyBreakPowerLoss := v.emergencyBreakPowerLoss
    totalPowerLoss := toFixed2 v.totalPowerLoss
    powerEfficiency := toFixed2 v.powerEfficiency
    totalBreakTime := v.totalBreakTime }

/-! ## Cylinder Status view (`CylinderStatus.js`) -/

/-- JavaScript `a > b` on numbers: false when an operand is `NaN`. -/
def jsGt (a b : JsNum) : Bool :=
  match a, b with
  | some x, some y => decide (x > y)
  | _, _ => false

/-- The `data` object of a response: field names with their values, which the
endpoint delivers as strings (a number reaches `parseInt` through its decimal
rendering). -/
abbrev TelemetryRecord := List (String × String)

/-- The property access `data.field`: `none` is `undefined`. -/
def TelemetryRecord.field (d : TelemetryRecord) (name : String) : Option String :=
  d.lookup name

/-- The string `parseInt` works on when given a field value: `undefined` is
first converted to the string "undefined". -/
def fieldToString : Option String → String
  | none => "undefined"
  | some s => s

/-- The call `parseInt(value)` on a field value, as a JavaScript number. -/
def parseIntField (value : Option String) : JsNum :=
  (parseInt (fieldToString value)).map (fun n => (n : ℚ))

/-- The state of `EnhancedCylinderDashboard` (its `useState` cells, the three
animation cells apart). -/
structure CylinderState where
  extensionLevel : JsNum
  targetLevel : JsNum
  operationMode : String
  systemStatus : String
  isRunning : Bool
  pressure : JsNum
  temperature : JsNum
  emergencyStop : Bool
  cycleCount : Int
  flowRate : JsNum
  data : Option TelemetryRecord
  loading : Bool
  error : Option String
  deriving DecidableEq

/-- The initial values of the `useState` cells. -/
def CylinderState.initial : CylinderState :=
  { extensionLevel := some 25
    targetLevel := some 25
    operationMode := "Manual"
    systemStatus := "Active"
    isRunning := false
    pressure := some 150
    temperature := some 68
    emergencyStop := false
    cycleCount := 1247
    flowRate := some 0
    data := none
    loading := true
    error := none }

/-- What one run of `fetchData` meets: a parsed envelope with its `success`
flag and its `data` object (`none` when the envelope has no `data`), or a
failure of the fetch or of the JSON parsing. -/
inductive PollOutcome where
  | envelope (success : Bool) (data : Option TelemetryRecord)
  | failure
  deriving DecidableEq

/-- The record `fetchData` installs in its `catch` branch. -/
def CylinderStatus.fallbackRecord : TelemetryRecord :=
  [("loadcell_out", "150"), ("loadcell_to_plc", "150"), ("horizontal_fwd", "1"),
   ("horizontal_rev", "0"), ("die_eject_forward", "0"), ("die_eject_rev", "1"),
   ("injection_fwd", "1"), ("injection_rev", "0"), ("clamping_fwd", "0"),
   ("clamping_rev", "1"), ("vertical1_down", "1"), ("vertical1_up", "0")]

/-- The constant `level` of `fetchData`:
`Math.min(100, Math.max(0, (parseInt(result.data.loadcell_out) / 300) * 100))`. -/
def CylinderStatus.fetchData.level (data : TelemetryRecord) : JsNum :=
  mathMin (some 100)
    (mathMax (some 0)
      (jsMul (jsDiv (parseIntField (data.field "loadcell_out")) (some 300)) (some 100)))

/-- The state after one run of `fetchData` of the Cylinder Status view. An
envelope with `success` but without `data` makes `result.data.loadcell_out`
throw, which lands in the `catch` branch like a failed fetch. -/
def CylinderStatus.fetchData (s : CylinderState) : PollOutcome → CylinderState
  | .envelope true (some data) =>
    let level := CylinderStatus.fetchData.level data
    { s with
      data := some data
      extensionLevel := jsOr level (some 25)
      targetLevel := jsOr level (some 25)
      loading := false }
  | .envelope false _ =>
    { s with error := some "Failed to fetch data", loading := false }
  | .envelope true none | .failure =>
    { s with error := some "Network error", data := some CylinderStatus.fallbackRecord, loading := false }

/-- The function `getPressureColor`, on the `pressure` cell. -/
def CylinderStatus.getPressureColor (pressure : JsNum) : String :=
  if jsGt pressure (some 300) then "text-red-400"
  else if jsGt pressure (some 200) then "text-yellow-400"
  else "text-green-400"

/-- The clamp of the specification: `clamp(x, lo, hi)`. -/
def clamp (x lo hi : ℚ) : ℚ := min hi (max lo x)

/-- The clamped percentage mapping in the words of the specification:
`percentage(raw, scaleMax) = clamp((raw / scaleMax) * 100, 0, 100)`. -/
def percentage (raw scaleMax : ℚ) : ℚ := clamp (raw / scaleMax * 100) 0 100

/-- The function `getTemperatureColor`, on the `temperature` cell. -/
def CylinderStatus.getTemperatureColor (temperature : JsNum) : String :=
  if jsGt temperature (some 85) then "text-red-400"
  else if jsGt temperature (some 75) then "text-yellow-400"
  else "text-green-400"

/-- The function `getCylinderStatus`: `parseInt(value) === 1`, on a field value
(`undefined` when the field or the whole record is missing). -/
def CylinderStatus.getCylinderStatus (value : Option String) : Bool :=
  match parseIntField value with
  | some x => decide (x = 1)
  | none => false

/-- The state of the Cylinder Status view after a sequence of runs of
`fetchData`, each to completion, in the order in which they resolve. -/
def CylinderStatus.run (s : CylinderState) (outcomes : List PollOutcome) : CylinderState :=
  outcomes.foldl CylinderStatus.fetchData s

/-! ## JSON objects, as the Energy view and the overview dashboard read them -/

/-- A field value of a JSON object: `null`, a boolean, a finite number, a
string, or an array or nested object, which is kept as the string `text` that
JavaScript converts it to. -/
inductive JsonValue where
  | null
  | bool (b : Bool)
  | num (q : ℚ)
  | str (s : String)
  | composite (text : String)
  deriving DecidableEq, Repr

/-- A JSON object: its fields in order. -/
abbrev JsonObject := List (String × JsonValue)

/-- The property access `o[name]`: `none` is `undefined`. -/
def JsonObject.get (o : JsonObject) (name : String) : Option JsonValue :=
  o.lookup name

/-- The object `{...o, name: v}`: the field `name` gets the value `v` in its
place when `o` has it, and is added at the end otherwise. -/
def JsonObject.set : JsonObject → String → JsonValue → JsonObject
  | [], name, v => [(name, v)]
  | (k, w) :: rest, name, v =>
    if k = name then (k, v) :: rest else (k, w) :: JsonObject.set rest name v

/-- Truthiness of a property value: `undefined`, `null`, `false`, the number 0
and the empty string are falsy; every array and object is truthy. -/
def truthy : Option JsonValue → Bool
  | none => false
  | some .null => false
  | some (.bool b) => b
  | some (.num q) => q ≠ 0
  | some (.str s) => s ≠ ""
  | some (.composite _) => true

/-- A JavaScript number with its special values kept apart. -/
inductive JsNumber where
  | nan
  | infinity (negative : Bool)
  | finite (q : ℚ)
  deriving DecidableEq

/-- JavaScript `x || 0` on a number: 0 when `x` is `NaN` or zero. -/
def JsNumber.orZero : JsNumber → JsNumber
  | .nan => .finite 0
  | .infinity n => .infinity n
  | .finite q => if q = 0 then .finite 0 else .finite q

/-! ## parseFloat -/

/-- The values of the longest prefix of decimal digits, and what follows it. -/
def takeDigits : List Char → List Nat × List Char
  | [] => ([], [])
  | c :: cs =>
    if 48 ≤ c.toNat ∧ c.toNat ≤ 57 then
      ((c.toNat - 48) :: (takeDigits cs).1, (takeDigits cs).2)
    else ([], c :: cs)

/-- The exponent part at the start of `cs`, if there is a complete one: `e` or
`E`, an optional sign and at least one digit. -/
def exponentPart (cs : List Char) : Int :=
  match cs with
  | e :: rest =>
    if e.toNat = 101 ∨ e.toNat = 69 then
      match rest with
      | sgn :: rest2 =>
        if sgn.toNat = 45 then -(mathInt 10 (takeDigits rest2).1 : Int)
        else if sgn.toNat = 43 then (mathInt 10 (takeDigits rest2).1 : Int)
        else (mathInt 10 (takeDigits rest).1 : Int)
      | [] => 0
    else 0
  | [] => 0

/-- The value of `m * 10 ^ e`. -/
def scale10 (m : ℚ) (e : Int) : ℚ :=
  if e < 0 then m / (10 : ℚ) ^ e.natAbs else m * (10 : ℚ) ^ e.natAbs

/-- The longest prefix of `cs` that is an unsigned decimal literal (`Infinity`,
or digits with an optional fraction and exponent), as a number; `NaN` when
there is none. -/
def parseUnsignedDecimal (cs : List Char) : JsNumber :=
  if "Infinity".toList.isPrefixOf cs then .infinity false
  else
    let intDs := (takeDigits cs).1
    let r1 := (takeDigits cs).2
    let fracDs :=
      match r1 with
      | dot :: r => if dot.toNat = 46 then (takeDigits r).1 else []
      | [] => []
    let r2 :=
      match r1 with
      | dot :: r => if dot.toNat = 46 then (takeDigits r).2 else r1
      | [] => []
    if intDs = [] ∧ fracDs = [] then .nan
    else
      .finite (scale10
        ((mathInt 10 intDs : ℚ) + (mathInt 10 fracDs : ℚ) / (10 : ℚ) ^ fracDs.length)
        (exponentPart r2))

/-- The negation of a number. -/
def JsNumber.neg : JsNumber → JsNumber
  | .nan => .nan
  | .infinity n => .infinity (!n)
  | .finite q => .finite (-q)

/-- JavaScript `parseFloat(s)`, over exact rationals. -/
def parseFloat (s : String) : JsNumber :=
  match s.toList.dropWhile isStrWhiteSpaceChar with
  | [] => .nan
  | c :: cs =>
    if c.toNat = 45 then (parseUnsignedDecimal cs).neg
    else if c.toNat = 43 then parseUnsignedDecimal cs
    else parseUnsignedDecimal (c :: cs)

/-- The call `parseFloat(v)` on a property value, which is first converted to a
string: `null`, `true` and `false` give the strings of these names, and a
finite number gives a numeral that `parseFloat` reads back as that number. -/
def JsonValue.parseFloat : JsonValue → JsNumber
  | .null => WaxInjection.parseFloat "null"
  | .bool true => WaxInjection.parseFloat "true"
  | .bool false => WaxInjection.parseFloat "false"
  | .num q => .finite q
  | .str s => WaxInjection.parseFloat s
  | .composite text => WaxInjection.parseFloat text

/-- The function `getValue` of the Energy view (on its `data` cell) and of the
overview dashboard (on its `currentData` cell); the two bodies are the same. -/
def getValue (data : Option JsonObject) (field : String) : JsNumber :=
  match data with
  | none => .finite 0
  | some d =>
    match d.get field with
    | none => .finite 0
    | some .null => .finite 0
    | some v => v.parseFloat.orZero

/-! ## Polling in the Energy view (`EM.js`) and the overview dashboard
(`WaxInjectorDashboard.js`) -/

/-- What one fetch meets: a parsed envelope with its `success` flag, its `data`
(`none` when it is missing or `null`) and its `error` text, or a failure of the
fetch or of the JSON parsing, with the message of the exception. -/
inductive FetchResult (α : Type) where
  | envelope (success : Bool) (data : Option α) (error : Option String)
  | failure (message : String)
  deriving DecidableEq

/-- The polling cells of `EnergyManagementDashboard` (the clock reading
`lastUpdate` and the two display toggles apart). -/
structure EnergyState where
  data : Option JsonObject
  loading : Bool
  error : Option String
  connectionStatus : String
  deriving DecidableEq

/-- The initial values of the `useState` cells of the Energy view. -/
def EnergyState.initial : EnergyState :=
  { data := none
    loading := true
    error := none
    connectionStatus := "connected" }

/-- The state of the Energy view after one run of its `fetchData`, from
`setLoading(true)` to the `finally` block. -/
def EnergyManagement.fetchData (s : EnergyState) : FetchResult JsonObject → EnergyState
  | .envelope true data _ =>
    { s with data := data, connectionStatus := "connected", loading := false }
  | .envelope false _ _ =>
    { s with
      error := some "API response unsuccessful"
      connectionStatus := "disconnected"
      loading := false }
  | .failure message =>
    { s with error := some message, connectionStatus := "disconnected", loading := false }

/-- The polling cells of `WaxInjectorDashboard`: the history `data`, the record
`currentData` and the status cells (the clock reading `lastUpdate` and the
chart selection apart). -/
structure DashboardState where
  data : List JsonObject
  currentData : Option JsonObject
  loading : Bool
  error : Option String
  connectionStatus : String
  deriving DecidableEq

/-- The initial values of the `useState` cells of the overview dashboard. -/
def DashboardState.initial : DashboardState :=
  { data := []
    currentData := none
    loading := true
    error := none
    connectionStatus := "connecting" }

/-- The first two statements of `initializeData`, before its fetches resolve. -/
def Dashboard.initializeData.start (s : DashboardState) : DashboardState :=
  { s with loading := true, connectionStatus := "connecting" }

/-- The object `{...item, timestamp: item.created_at || now}`, where `now` is
the capture time `new Date().toISOString()`. -/
def withTimestamp (item : JsonObject) (now : String) : JsonObject :=
  item.set "timestamp"
    (match item.get "created_at" with
      | some v => if truthy (some v) then v else .str now
      | none => .str now)

/-- The message `text || fallback` of a thrown error. -/
def errorMessage (text : Option String) (fallback : String) : String :=
  match text with
  | some t => if t = "" then fallback else t
  | none => fallback

/-- The function `fetchLatestData`: the state after it and the value it
returns (`none` is `null`); `now` is the capture time. -/
def Dashboard.fetchLatestData (s : DashboardState) (now : String) :
    FetchResult JsonObject → DashboardState × Option JsonObject
  | .envelope true (some data) _ =>
    let dataWithTimestamp := withTimestamp data now
    ({ s with
        currentData := some dataWithTimestamp
        connectionStatus := "connected"
        error := none },
      some dataWithTimestamp)
  | .envelope _ _ error =>
    ({ s with
        error := some (errorMessage error "No data available")
        connectionStatus := "disconnected" },
      none)
  | .failure message =>
    ({ s with error := some message, connectionStatus := "disconnected" }, none)

/-- The call `list.slice(-n)`: the last `n` entries. -/
def sliceLast {α : Type} (n : Nat) (list : List α) : List α :=
  list.drop (list.length - n)

/-- The updater passed to `setData` in the real-time effect, for a delivered
record `latestData`. -/
def Dashboard.updateHistory (prevData : List JsonObject) (latestData : JsonObject) :
    List JsonObject :=
  let newData := prevData
  let lastTimestamp : Option JsonValue :=
    match newData.getLast? with
    | some last => last.get "timestamp"
    | none => some .null
  if !truthy lastTimestamp || decide (latestData.get "timestamp" ≠ lastTimestamp) then
    sliceLast 50 (newData ++ [latestData])
  else newData

/-- One tick of the real-time effect run to completion: `fetchLatestData`, then
the history update when a record was returned. -/
def Dashboard.poll (s : DashboardState) (now : String) (r : FetchResult JsonObject) :
    DashboardState :=
  match Dashboard.fetchLatestData s now r with
  | (s1, some latestData) => { s1 with data := Dashboard.updateHistory s1.data latestData }
  | (s1, none) => s1

/-- The records of a historical response with their timestamps added, in the
order of the response; `now i` is the capture time taken for the record at
index `i`. -/
def addTimestamps (now : Nat → String) : Nat → List JsonObject → List JsonObject
  | _, [] => []
  | i, item :: rest => withTimestamp item (now i) :: addTimestamps now (i + 1) rest

/-- The state after `fetchHistoricalData`: on a successful envelope the history
becomes the reversed list of the records with timestamps; otherwise nothing is
set. -/
def Dashboard.fetchHistoricalData (s : DashboardState) (now : Nat → String) :
    FetchResult (List JsonObject) → DashboardState
  | .envelope true (some data) _ => { s with data := (addTimestamps now 0 data).reverse }
  | .envelope _ _ _ => s
  | .failure _ => s

/-- The states the overview dashboard goes through after its historical load:
a sequence of ticks, each with its capture time and what its fetch met. -/
def Dashboard.run (s : DashboardState) (ticks : List (String × FetchResult JsonObject)) :
    DashboardState :=
  ticks.foldl (fun st t => Dashboard.poll st t.1 t.2) s

/-- The state of the Energy view after a sequence of runs of `fetchData`, each
to completion, in the order in which they resolve. -/
def EnergyManagement.run (s : EnergyState) (results : List (FetchResult JsonObject)) :
    EnergyState :=
  results.foldl EnergyManagement.fetchData s

/-- A poll of the Energy view succeeds when the envelope has `success`. -/
def EnergyManagement.succeeded : FetchResult JsonObject → Bool
  | .envelope true _ _ => true
  | _ => false

/-- A poll of the overview dashboard succeeds when the envelope has `success`
and a `data` object. -/
def Dashboard.succeeded : FetchResult JsonObject → Bool
  | .envelope true (some _) _ => true
  | _ => false

/-! ## Arithmetic on numbers with their special values

Signed zeros are not kept apart: a zero divisor counts as positive. -/

/-- `Math.abs(a)`. -/
def JsNumber.abs : JsNumber → JsNumber
  | .nan => .nan
  | .infinity _ => .infinity false
  | .finite q => .finite |q|

/-- JavaScript `a + b`. -/
def JsNumber.add : JsNumber → JsNumber → JsNumber
  | .nan, _ => .nan
  | _, .nan => .nan
  | .infinity n, .infinity m => if n = m then .infinity n else .nan
  | .infinity n, .finite _ => .infinity n
  | .finite _, .infinity m => .infinity m
  | .finite x, .finite y => .finite (x + y)

/-- JavaScript `a - b`. -/
def JsNumber.sub (a b : JsNumber) : JsNumber := a.add b.neg

/-- JavaScript `a * b`. -/
def JsNumber.mul : JsNumber → JsNumber → JsNumber
  | .nan, _ => .nan
  | _, .nan => .nan
  | .infinity n, .infinity m => .infinity (n != m)
  | .infinity n, .finite y => if y = 0 then .nan else .infinity (n != decide (y < 0))
  | .finite x, .infinity m => if x = 0 then .nan else .infinity (m != decide (x < 0))
  | .finite x, .finite y => .finite (x * y)

/-- JavaScript `a / b`. -/
def JsNumber.div : JsNumber → JsNumber → JsNumber
  | .nan, _ => .nan
  | _, .nan => .nan
  | .infinity _, .infinity _ => .nan
  | .infinity n, .finite y => .infinity (n != decide (y < 0))
  | .finite _, .infinity _ => .finite 0
  | .finite x, .finite y =>
    if y = 0 then (if x = 0 then .nan else .infinity (decide (x < 0))) else .finite (x / y)

/-- `Math.max(a, b)`. -/
def JsNumber.max : JsNumber → JsNumber → JsNumber
  | .nan, _ => .nan
  | _, .nan => .nan
  | .infinity false, _ => .infinity false
  | _, .infinity false => .infinity false
  | .infinity true, b => b
  | a, .infinity true => a
  | .finite x, .finite y => .finite (Max.max x y)

/-- `Math.min(a, b)`. -/
def JsNumber.min : JsNumber → JsNumber → JsNumber
  | .nan, _ => .nan
  | _, .nan => .nan
  | .infinity true, _ => .infinity true
  | _, .infinity true => .infinity true
  | .infinity false, b => b
  | a, .infinity false => a
  | .finite x, .finite y => .finite (Min.min x y)

/-- `Math.max(...values)`: minus infinity for no argument. -/
def mathMaxAll (values : List JsNumber) : JsNumber :=
  values.foldl JsNumber.max (.infinity true)

/-- `Math.min(...values)`: plus infinity for no argument. -/
def mathMinAll (values : List JsNumber) : JsNumber :=
  values.foldl JsNumber.min (.infinity false)

/-- JavaScript `a || d` on a number: `d` when `a` is `NaN` or zero. -/
def JsNumber.orElse (a d : JsNumber) : JsNumber :=
  match a with
  | .nan => d
  | .infinity n => .infinity n
  | .finite q => if q = 0 then d else .finite q

/-- The number as a `JsNum`, where every value that is not finite is `none`. -/
def JsNumber.toJsNum : JsNumber → JsNum
  | .finite q => some q
  | _ => none

/-! ## Double-precision arithmetic

The arithmetic above is exact. The doubles of the running program are modelled
here: an operation on doubles gives the double nearest to the exact result. -/

/-- The power `2 ^ e` for an integer exponent. -/
def pow2 (e : Int) : ℚ :=
  if e < 0 then 1 / 2 ^ e.natAbs else 2 ^ e.natAbs

/-- The binary logarithm of `n`, rounded down, by at most `steps` halvings. -/
def log2Steps : Nat → Nat → Nat
  | 0, _ => 0
  | steps + 1, n => if n < 2 then 0 else log2Steps steps (n / 2) + 1

/-- The binary logarithm of `n`, rounded down (0 for `n = 0`). -/
def log2Floor (n : Nat) : Nat := log2Steps n n

/-- The exponent `e` with `2 ^ e ≤ a < 2 ^ (e + 1)`, for a positive `a`. -/
def binaryExponent (a : ℚ) : Int :=
  let e : Int := (log2Floor a.num.natAbs : Int) - (log2Floor a.den : Int)
  if a < pow2 e then e - 1 else e

/-- The integer nearest to `x`, the even one on a tie. -/
def roundHalfEven (x : ℚ) : Int :=
  let f := Rat.floor x
  if x - f < 1 / 2 then f
  else if 1 / 2 < x - f then f + 1
  else if f % 2 = 0 then f else f + 1

/-- The multiple of the unit in the last place nearest to a number `a ≥ 0`, the
even one on a tie: 53 significant bits for a normal number, multiples of
`2 ^ (-1074)` below `2 ^ (-1022)`. -/
def roundToPrecision (a : ℚ) : ℚ :=
  let e := max (binaryExponent a) (-1022)
  let ulp := pow2 (e - 52)
  (roundHalfEven (a / ulp) : ℚ) * ulp

/-- The rounding of `q` to 53 significant bits, before the check for overflow. -/
def roundedValue (q : ℚ) : ℚ :=
  if q < 0 then -roundToPrecision (-q)
  else if q = 0 then 0
  else roundToPrecision q

/-- The double nearest to the rational `q` (IEEE 754 binary64, round to nearest,
ties to even), an infinity from `2 ^ 1024` on. -/
def toDouble (q : ℚ) : JsNumber :=
  let r := roundedValue q
  if pow2 1024 ≤ |r| then .infinity (decide (q < 0)) else .finite r

/-- The result of an operation as a double. -/
def JsNumber.rounded : JsNumber → JsNumber
  | .finite q => toDouble q
  | x => x

/-- JavaScript `a > b` on numbers with their special values. -/
def JsNumber.gt : JsNumber → JsNumber → Bool
  | .nan, _ => false
  | _, .nan => false
  | .infinity n, .infinity m => !n && m
  | .infinity n, .finite _ => !n
  | .finite _, .infinity m => m
  | .finite x, .finite y => decide (x > y)

/-! ## Charts and bars of the overview dashboard

The chart is modelled in double-precision arithmetic, the progress bar in
exact arithmetic. -/

/-- The call `parseFloat(d[metric])` on a property that may be missing:
`undefined` is read as the string "undefined". -/
def parseFloatProperty : Option JsonValue → JsNumber
  | none => parseFloat "undefined"
  | some v => v.parseFloat

/-- The call `parseFloat(d[metric])` as the double it returns. -/
def parseFloatDouble (v : Option JsonValue) : JsNumber :=
  (parseFloatProperty v).rounded

/-- The expression `parseFloat(d[metric]) || 0` of `SimpleLineChart`. -/
def SimpleLineChart.value (d : JsonObject) (metric : String) : JsNumber :=
  (parseFloatDouble (d.get metric)).orElse (.finite 0)

/-- The constant `recentData` of `SimpleLineChart`. -/
def SimpleLineChart.recentData (data : List JsonObject) : List JsonObject :=
  sliceLast 10 data

/-- The constant `values` of `SimpleLineChart`. -/
def SimpleLineChart.values (data : List JsonObject) (metric : String) : List JsNumber :=
  (SimpleLineChart.recentData data).map (fun d => SimpleLineChart.value d metric)

/-- The constant `maxValue`: `Math.max(...values, 1)`. -/
def SimpleLineChart.maxValue (data : List JsonObject) (metric : String) : JsNumber :=
  mathMaxAll (SimpleLineChart.values data metric ++ [.finite 1])

/-- The constant `minValue`: `Math.min(...values, 0)`. -/
def SimpleLineChart.minValue (data : List JsonObject) (metric : String) : JsNumber :=
  mathMinAll (SimpleLineChart.values data metric ++ [.finite 0])

/-- The constant `range`: `maxValue - minValue || 1`. -/
def SimpleLineChart.range (data : List JsonObject) (metric : String) : JsNumber :=
  ((SimpleLineChart.maxValue data metric).sub
    (SimpleLineChart.minValue data metric)).rounded.orElse (.finite 1)

/-- The heights, in pixels, of the bars `SimpleLineChart` draws, one for each
record of `recentData`: `((value - minValue) / range) * 140 + 10`, each of the
four operations rounded to a double. -/
def SimpleLineChart.heights (data : List JsonObject) (metric : String) : List JsNumber :=
  (SimpleLineChart.recentData data).map (fun point =>
    let value := SimpleLineChart.value point metric
    let difference := (value.sub (SimpleLineChart.minValue data metric)).rounded
    let ratio := (difference.div (SimpleLineChart.range data metric)).rounded
    let scaled := (ratio.mul (.finite 140)).rounded
    (scaled.add (.finite 10)).rounded)

/-- The constant `percentage` of `ProgressBar`:
`Math.min((Math.abs(value) / max) * 100, 100)`. -/
def ProgressBar.percentage (value max : JsNumber) : JsNumber :=
  JsNumber.min (((value.abs).div max).mul (.finite 100)) (.finite 100)

/-! ## Controls of the Cylinder Status view -/

/-- JavaScript `a - b` on finite values; `NaN` is contagious. -/
def jsSub (a b : JsNum) : JsNum :=
  match a, b with
  | some x, some y => some (x - y)
  | _, _ => none

/-- `Math.abs(a)` on a finite value or `NaN`. -/
def jsAbs (a : JsNum) : JsNum := a.map (fun x => |x|)

/-- JavaScript `a < b` on numbers: false when an operand is `NaN`. -/
def jsLt (a b : JsNum) : Bool :=
  match a, b with
  | some x, some y => decide (x < y)
  | _, _ => false

/-- One firing of the interval of the auto mode effect, which exists while the
mode is Auto, the cylinder is running and emergency stop is off; `random1` and
`random2` are the two values of `Math.random()`. -/
def CylinderStatus.autoTick (s : CylinderState) (random1 random2 : ℚ) : CylinderState :=
  if s.operationMode = "Auto" ∧ s.isRunning = true ∧ s.emergencyStop = false then
    let diff := jsSub s.targetLevel s.extensionLevel
    let basePressure : ℚ := 150
    let loadPressure := jsMul (jsDiv s.extensionLevel (some 100)) (some 200)
    let pressure :=
      jsAdd (jsAdd (some basePressure) loadPressure) (some ((random1 - 1 / 2) * 10))
    let baseTemp : ℚ := 68
    let runningTemp : ℚ := if s.isRunning then 15 else 0
    let temperature : JsNum := some (baseTemp + runningTemp + (random2 - 1 / 2) * 3)
    if jsLt (jsAbs diff) (some (1 / 2)) then
      { s with
        extensionLevel := s.targetLevel
        isRunning := false
        flowRate := some 0
        pressure := pressure
        temperature := temperature }
    else
      let step : ℚ := if jsGt diff (some 0) then 3 / 2 else -(3 / 2)
      { s with
        extensionLevel := jsAdd s.extensionLevel (some step)
        flowRate := some (|step| * 10)
        pressure := pressure
        temperature := temperature }
  else s

/-- The state after a sequence of firings of the auto mode interval, each with
its two random values. -/
def CylinderStatus.autoRun (s : CylinderState) (randoms : List (ℚ × ℚ)) : CylinderState :=
  randoms.foldl (fun st r => CylinderStatus.autoTick st r.1 r.2) s

/-- The function `handleManualControl`, on the value of the slider. -/
def CylinderStatus.handleManualControl (s : CylinderState) (value : String) : CylinderState :=
  if s.operationMode = "Manual" ∧ s.emergencyStop = false then
    { s with
      extensionLevel := (parseFloat value).toJsNum
      targetLevel := (parseFloat value).toJsNum }
  else s

/-- The function `handleExtend`. -/
def CylinderStatus.handleExtend (s : CylinderState) : CylinderState :=
  if s.emergencyStop = false then
    let newTarget := mathMin (jsAdd s.targetLevel (some 10)) (some 100)
    { s with
      targetLevel := newTarget
      isRunning := if s.operationMode = "Auto" then true else s.isRunning }
  else s

/-- The function `handleRetract`. -/
def CylinderStatus.handleRetract (s : CylinderState) : CylinderState :=
  if s.emergencyStop = false then
    let newTarget := mathMax (jsSub s.targetLevel (some 10)) (some 0)
    { s with
      targetLevel := newTarget
      isRunning := if s.operationMode = "Auto" then true else s.isRunning }
  else s

/-- The function `handleEmergencyStop`. -/
def CylinderStatus.handleEmergencyStop (s : CylinderState) : CylinderState :=
  { s with
    emergencyStop := !s.emergencyStop
    isRunning := false
    systemStatus := if s.emergencyStop = false then "Emergency Stop" else "Active" }

/-- The two target commands of the control panel. -/
inductive TargetCommand where
  | extend
  | retract
  deriving DecidableEq

/-- The state after a sequence of extend and retract commands. -/
def CylinderStatus.runCommands (s : CylinderState) (commands : List TargetCommand) :
    CylinderState :=
  commands.foldl (fun st c =>
    match c with
    | .extend => CylinderStatus.handleExtend st
    | .retract => CylinderStatus.handleRetract st) s

/-! ## The calculator in double-precision arithmetic

The calculator above works on exact numbers. Here every operation gives the
double nearest to the exact result, as in the running program. -/

/-- The idiom `parseInt(s) || 0` as a double. -/
def parseIntOrZeroDouble (s : String) : JsNumber :=
  toDouble (parseIntOr s 0)

/-- The local constants of `calculatePowerLoss` as doubles. -/
structure PowerLossDoubles where
  goodCount : JsNumber
  scrapCount : JsNumber
  emergencyBreak : JsNumber
  totalProducts : JsNumber
  scrapPercentage : JsNumber
  totalBreakTime : JsNumber
  effectiveWorkingTime : JsNumber
  goodProductPowerTime : JsNumber
  scrapPowerLoss : JsNumber
  emergencyBreakPowerLoss : JsNumber
  totalPowerLoss : JsNumber
  powerEfficiency : JsNumber
  deriving DecidableEq

/-- The body of `calculatePowerLoss` up to the call of `setResults`, in the
doubles of the program: every `+`, `-`, `*` and `/` is followed by the rounding
to a double. -/
def calculatePowerLossDoubles (goodProducts scrapProducts emergencyBreakTime : String) :
    PowerLossDoubles :=
  let goodCount := parseIntOrZeroDouble goodProducts
  let scrapCount := parseIntOrZeroDouble scrapProducts
  let emergencyBreak := parseIntOrZeroDouble emergencyBreakTime
  let totalProducts := (goodCount.add scrapCount).rounded
  let scrapPercentage :=
    if totalProducts.gt (.finite 0) then
      (((scrapCount.div totalProducts).rounded).mul (.finite 100)).rounded
    else .finite 0
  let totalBreakTime := ((JsNumber.finite REGULAR_BREAK_TIME).add emergencyBreak).rounded
  let effectiveWorkingTime := ((JsNumber.finite TOTAL_POWER_TIME).sub totalBreakTime).rounded
  let goodProductPowerTime :=
    if totalProducts.gt (.finite 0) then
      (((goodCount.div totalProducts).rounded).mul effectiveWorkingTime).rounded
    else .finite 0
  let scrapPowerLoss :=
    if totalProducts.gt (.finite 0) then
      (((scrapCount.div totalProducts).rounded).mul effectiveWorkingTime).rounded
    else .finite 0
  let emergencyBreakPowerLoss := emergencyBreak
  let totalPowerLoss := (scrapPowerLoss.add emergencyBreakPowerLoss).rounded
  let powerEfficiency :=
    if effectiveWorkingTime.gt (.finite 0) then
      (((goodProductPowerTime.div effectiveWorkingTime).rounded).mul (.finite 100)).rounded
    else .finite 0
  { goodCount := goodCount
    scrapCount := scrapCount
    emergencyBreak := emergencyBreak
    totalProducts := totalProducts
    scrapPercentage := scrapPercentage
    totalBreakTime := totalBreakTime
    effectiveWorkingTime := effectiveWorkingTime
    goodProductPowerTime := goodProductPowerTime
    scrapPowerLoss := scrapPowerLoss
    emergencyBreakPowerLoss := emergencyBreakPowerLoss
    totalPowerLoss := totalPowerLoss
    powerEfficiency := powerEfficiency }

/-! ## Lemmas on the number model -/

theorem parseIntOr_zero_of_parse {s : String} {n : Int} (h : parseInt s = some n) :
    parseIntOr s 0 = n := by
  unfold parseIntOr
  rw [h]
  by_cases hn : n = 0 <;> simp [hn]

theorem toFixed2_zero : toFixed2 (some 0) = "0.00" := by decide!

/-! ## Decimal numerals are read back by parseInt -/

theorem digitChar_facts (k : Nat) (hk : k < 10) :
    digitValue (Nat.digitChar k) = some k ∧ isStrWhiteSpaceChar (Nat.digitChar k) = false ∧
    (Nat.digitChar k).toNat ≠ 45 ∧ (Nat.digitChar k).toNat ≠ 43 ∧
    (Nat.digitChar k).toNat ≠ 120 ∧ (Nat.digitChar k).toNat ≠ 88 := by
  interval_cases k <;> decide

theorem toDigitsCore_digits (fuel : Nat) : ∀ (n : Nat) (ds : List Char), n < fuel →
    ∃ ks : List Nat, ks ≠ [] ∧ (∀ k ∈ ks, k < 10) ∧
      Nat.toDigitsCore 10 fuel n ds = ks.map Nat.digitChar ++ ds ∧ mathInt 10 ks = n := by
  induction fuel with
  | zero => intro n ds h; omega
  | succ fuel ih =>
    intro n ds h
    unfold Nat.toDigitsCore
    by_cases h0 : n / 10 = 0
    · refine ⟨[n % 10], by simp, ?_, by simp [h0], ?_⟩
      · intro k hk
        simp at hk
        omega
      · simp [mathInt]
        omega
    · obtain ⟨ks, hne, hlt, heq, hval⟩ := ih (n / 10) (Nat.digitChar (n % 10) :: ds) (by omega)
      refine ⟨ks ++ [n % 10], by simp, ?_, ?_, ?_⟩
      · intro k hk
        rcases List.mem_append.1 hk with hk | hk
        · exact hlt k hk
        · simp at hk
          omega
      · simp [h0, heq]
      · simp only [mathInt] at hval ⊢
        rw [List.foldl_append, hval]
        simp
        omega

theorem radixDigits_map_digitChar (ks : List Nat) (h : ∀ k ∈ ks, k < 10) :
    radixDigits 10 (ks.map Nat.digitChar) = ks := by
  induction ks with
  | nil => rfl
  | cons k ks ih =>
    have hk : k < 10 := h k (by simp)
    simp only [List.map_cons, radixDigits, (digitChar_facts k hk).1, hk, if_true]
    rw [ih (fun j hj => h j (by simp [hj]))]

/-- Every natural number, written in decimal, is an input that `parseInt` reads
as that number. -/
theorem parseInt_toString (n : Nat) : parseInt (toString n) = some (n : Int) := by
  obtain ⟨ks, hne, hlt, heq, hval⟩ := toDigitsCore_digits (n + 1) n [] (by omega)
  have hrepr : (toString n).toList = ks.map Nat.digitChar := by
    show (Nat.repr n).data = _
    simp [Nat.repr, Nat.toDigits, heq, List.asString]
  unfold parseInt
  rw [hrepr]
  cases ks with
  | nil => exact absurd rfl hne
  | cons k ks =>
    have hk := digitChar_facts k (hlt k (by simp))
    have hrd := radixDigits_map_digitChar (k :: ks) hlt
    simp only [List.map_cons] at hrd ⊢
    rw [List.dropWhile_cons_of_neg (by simp [hk.2.1])]
    simp only [hk.2.2.1, hk.2.2.2.1, if_false]
    have hpd : parseDigits (Nat.digitChar k :: ks.map Nat.digitChar) = some n := by
      unfold parseDigits
      cases ks with
      | nil =>
        simp only [List.map_nil] at hrd ⊢
        simp [hrd, hval]
      | cons j js =>
        have hj := digitChar_facts j (hlt j (by simp))
        simp only [List.map_cons] at hrd ⊢
        simp [hj.2.2.2.2.1, hj.2.2.2.2.2, hrd, hval]
    simp [hpd]

/-! ## The power-loss calculator -/

/-- C1. For input strings that `parseInt` reads as integers `good`, `scrap`,
`emergencyBreak` with `good` and `scrap` non-negative, `calculatePowerLoss`
computes, before rounding, totalProducts = good + scrap, scrapPercentage =
scrap / totalProducts * 100, effectiveWorkingTime = 480 - (60 + emergencyBreak),
goodProductPowerTime = good / totalProducts * effectiveWorkingTime,
scrapPowerLoss = scrap / totalProducts * effectiveWorkingTime (each ratio 0 when
totalProducts is 0) and totalPowerLoss = scrapPowerLoss + emergencyBreak. -/
theorem calculatePowerLoss_formulas (goodProducts scrapProducts emergencyBreakTime : String)
    (good scrap emergencyBreak : Int)
    (hg : parseInt goodProducts = some good) (hs : parseInt scrapProducts = some scrap)
    (he : parseInt emergencyBreakTime = some emergencyBreak)
    (h0g : 0 ≤ good) (h0s : 0 ≤ scrap) :
    let v := calculatePowerLossValues goodProducts scrapProducts emergencyBreakTime
    v.totalProducts = good + scrap ∧
    v.scrapPercentage =
      some (if good + scrap = 0 then 0 else (scrap : ℚ) / ((good : ℚ) + scrap) * 100) ∧
    v.effectiveWorkingTime = 480 - (60 + emergencyBreak) ∧
    v.goodProductPowerTime =
      some (if good + scrap = 0 then 0
        else (good : ℚ) / ((good : ℚ) + scrap) * (480 - (60 + (emergencyBreak : ℚ)))) ∧
    v.scrapPowerLoss =
      some (if good + scrap = 0 then 0
        else (scrap : ℚ) / ((good : ℚ) + scrap) * (480 - (60 + (emergencyBreak : ℚ)))) ∧
    v.totalPowerLoss =
      some ((if good + scrap = 0 then 0
        else (scrap : ℚ) / ((good : ℚ) + scrap) * (480 - (60 + (emergencyBreak : ℚ))))
        + emergencyBreak) := by
  have hG := parseIntOr_zero_of_parse hg
  have hS := parseIntOr_zero_of_parse hs
  have hE := parseIntOr_zero_of_parse he
  simp only [calculatePowerLossValues, hG, hS, hE, TOTAL_POWER_TIME, REGULAR_BREAK_TIME]
  by_cases ht : good + scrap = 0
  · have : ¬ (good + scrap > 0) := by omega
    simp [ht, this, jsAdd, JsNum.ofInt]
  · have hpos : good + scrap > 0 := by omega
    have hne : (good : ℚ) + (scrap : ℚ) ≠ 0 := by exact_mod_cast ht
    simp [hpos, ht, hne, jsMul, jsDiv, jsAdd, JsNum.ofInt]

/-- Witness of C1 on the inputs "7", "3", "20": the scrap percentage is 30 and
the total power loss 140. -/
theorem calculatePowerLoss_formulas_witness :
    parseInt "7" = some 7 ∧ parseInt "3" = some 3 ∧ parseInt "20" = some 20 ∧
    (calculatePowerLossValues "7" "3" "20").scrapPercentage = some 30 ∧
    (calculatePowerLossValues "7" "3" "20").totalPowerLoss = some 140 :=
  have h := calculatePowerLoss_formulas "7" "3" "20" 7 3 20 (by decide) (by decide)
    (by decide) (by decide) (by decide)
  ⟨by decide, by decide, by decide, h.2.1.trans (by norm_num),
    h.2.2.2.2.2.trans (by norm_num)⟩

/-- C2. For inputs read as integers with good + scrap > 0, the scrap percentage
is a finite number and scrapPercentage + good / (good + scrap) * 100 = 100
exactly, over the rationals. This holds for every emergency break input, so in
particular when 60 + emergencyBreak < 480. -/
theorem scrapPercentage_add_good_share
    (goodProducts scrapProducts emergencyBreakTime : String) (good scrap : Int)
    (hg : parseInt goodProducts = some good) (hs : parseInt scrapProducts = some scrap)
    (hpos : good + scrap > 0) :
    ∃ p : ℚ,
      (calculatePowerLossValues goodProducts scrapProducts emergencyBreakTime).scrapPercentage
        = some p ∧
      p + (good : ℚ) / ((good : ℚ) + scrap) * 100 = 100 := by
  have hG := parseIntOr_zero_of_parse hg
  have hS := parseIntOr_zero_of_parse hs
  have hne : (good : ℚ) + (scrap : ℚ) ≠ 0 := by exact_mod_cast hpos.ne'
  refine ⟨(scrap : ℚ) / ((good : ℚ) + scrap) * 100, ?_, ?_⟩
  · simp [calculatePowerLossValues, hG, hS, hpos, hne, jsMul, jsDiv, JsNum.ofInt]
  · field_simp
    ring

/-- Witness of C2 on the inputs "90", "10", "0". -/
theorem scrapPercentage_add_good_share_witness :
    parseInt "90" = some 90 ∧ parseInt "10" = some 10 ∧
    ∃ p : ℚ, (calculatePowerLossValues "90" "10" "0").scrapPercentage = some p ∧
      p + ((90 : Int) : ℚ) / (((90 : Int) : ℚ) + (10 : Int)) * 100 = 100 :=
  ⟨by decide, by decide,
    scrapPercentage_add_good_share "90" "10" "0" 90 10 (by decide) (by decide) (by decide)⟩

/-- C3. When totalProducts is 0, for every emergency break input the scrap
percentage, the good product power time and the scrap power loss are the finite
value 0 (no division is performed, whose result would not be finite), and they
are displayed as 0.00. -/
theorem zero_products_yield_zero (goodProducts scrapProducts emergencyBreakTime : String)
    (h : (calculatePowerLossValues goodProducts scrapProducts emergencyBreakTime).totalProducts
      = 0) :
    let v := calculatePowerLossValues goodProducts scrapProducts emergencyBreakTime
    let r := calculatePowerLoss goodProducts scrapProducts emergencyBreakTime
    v.scrapPercentage = some 0 ∧ v.goodProductPowerTime = some 0 ∧ v.scrapPowerLoss = some 0 ∧
    r.scrapPercentage = "0.00" ∧ r.goodProductPowerTime = "0.00" ∧ r.scrapPowerLoss = "0.00" := by
  have h0 : parseIntOr goodProducts 0 + parseIntOr scrapProducts 0 = 0 := h
  have hv : (calculatePowerLossValues goodProducts scrapProducts emergencyBreakTime).scrapPercentage
        = some 0 ∧
      (calculatePowerLossValues goodProducts scrapProducts emergencyBreakTime).goodProductPowerTime
        = some 0 ∧
      (calculatePowerLossValues goodProducts scrapProducts emergencyBreakTime).scrapPowerLoss
        = some 0 := by
    simp [calculatePowerLossValues, h0]
  simp only [calculatePowerLoss, hv.1, hv.2.1, hv.2.2, toFixed2_zero]
  simp

/-- Witness of C3 on empty product inputs and an emergency break of 30. -/
theorem zero_products_yield_zero_witness :
    (calculatePowerLossValues "" "" "30").totalProducts = 0 ∧
    (calculatePowerLossValues "" "" "30").scrapPercentage = some 0 ∧
    (calculatePowerLoss "" "" "30").scrapPowerLoss = "0.00" :=
  have h := zero_products_yield_zero "" "" "30" (by decide)
  ⟨by decide, h.1, h.2.2.2.2.2⟩

/-- C4. When effectiveWorkingTime is 0, which is the case exactly when the
emergency break is 420 minutes, powerEfficiency is the finite value 0 (displayed
as 0.00) for every good and scrap input: nothing is divided by zero. -/
theorem zero_working_time_efficiency (goodProducts scrapProducts emergencyBreakTime : String)
    (h : (calculatePowerLossValues goodProducts scrapProducts
      emergencyBreakTime).effectiveWorkingTime = 0) :
    let v := calculatePowerLossValues goodProducts scrapProducts emergencyBreakTime
    v.emergencyBreak = 420 ∧ v.powerEfficiency = some 0 ∧
    (calculatePowerLoss goodProducts scrapProducts emergencyBreakTime).powerEfficiency
      = "0.00" := by
  have h0 : TOTAL_POWER_TIME - (REGULAR_BREAK_TIME + parseIntOr emergencyBreakTime 0) = 0 := h
  have hp : (calculatePowerLossValues goodProducts scrapProducts
      emergencyBreakTime).powerEfficiency = some 0 := by
    simp [calculatePowerLossValues, h0]
  refine ⟨?_, hp, ?_⟩
  · show parseIntOr emergencyBreakTime 0 = 420
    simp only [TOTAL_POWER_TIME, REGULAR_BREAK_TIME] at h0
    omega
  · simp only [calculatePowerLoss, hp, toFixed2_zero]

/-- Witness of C4 on the inputs "90", "10", "420". -/
theorem zero_working_time_efficiency_witness :
    (calculatePowerLossValues "90" "10" "420").effectiveWorkingTime = 0 ∧
    (calculatePowerLossValues "90" "10" "420").powerEfficiency = some 0 :=
  ⟨by decide, (zero_working_time_efficiency "90" "10" "420" (by decide)).2.1⟩

/-- C5, as stated, fails: with one good product and an emergency break of 421
minutes the effective working time is -1, and powerEfficiency is 0, not
goodProductPowerTime / effectiveWorkingTime * 100, which is 100. -/
theorem negative_working_time_counterexample :
    (calculatePowerLossValues "1" "0" "421").effectiveWorkingTime = -1 ∧
    (calculatePowerLossValues "1" "0" "421").powerEfficiency = some 0 ∧
    jsMul (jsDiv (calculatePowerLossValues "1" "0" "421").goodProductPowerTime
      (JsNum.ofInt (calculatePowerLossValues "1" "0" "421").effectiveWorkingTime)) (some 100)
      = some 100 ∧
    (calculatePowerLossValues "1" "0" "421").powerEfficiency ≠
      jsMul (jsDiv (calculatePowerLossValues "1" "0" "421").goodProductPowerTime
        (JsNum.ofInt (calculatePowerLossValues "1" "0" "421").effectiveWorkingTime))
        (some 100) := by
  decide!

/-- C5, amended. The guard of powerEfficiency is `effectiveWorkingTime > 0`: for
every emergency break above 420 minutes and all good and scrap counts (the
non-negative ones among them) with at least one product in total, the effective
working time is negative and
powerEfficiency is 0, as it is for an effective working time of exactly 0. The
negative time is unguarded only in goodProductPowerTime and scrapPowerLoss,
which still are good / total * effectiveWorkingTime and
scrap / total * effectiveWorkingTime. -/
theorem negative_working_time_efficiency
    (goodProducts scrapProducts emergencyBreakTime : String)
    (good scrap emergencyBreak : Int)
    (hg : parseInt goodProducts = some good) (hs : parseInt scrapProducts = some scrap)
    (he : parseInt emergencyBreakTime = some emergencyBreak)
    (hpos : good + scrap > 0) (hlate : emergencyBreak > 420) :
    let v := calculatePowerLossValues goodProducts scrapProducts emergencyBreakTime
    v.effectiveWorkingTime = 420 - emergencyBreak ∧ v.effectiveWorkingTime < 0 ∧
    v.powerEfficiency = some 0 ∧
    v.goodProductPowerTime =
      some ((good : ℚ) / ((good : ℚ) + scrap) * (420 - (emergencyBreak : ℚ))) ∧
    v.scrapPowerLoss =
      some ((scrap : ℚ) / ((good : ℚ) + scrap) * (420 - (emergencyBreak : ℚ))) := by
  have hG := parseIntOr_zero_of_parse hg
  have hS := parseIntOr_zero_of_parse hs
  have hE := parseIntOr_zero_of_parse he
  have hne : (good : ℚ) + (scrap : ℚ) ≠ 0 := by exact_mod_cast hpos.ne'
  have hneg : ¬ (480 - (60 + emergencyBreak) > 0) := by omega
  have h420 : (480 : ℚ) - (60 + (emergencyBreak : ℚ)) = 420 - emergencyBreak := by ring
  simp only [calculatePowerLossValues, hG, hS, hE, TOTAL_POWER_TIME, REGULAR_BREAK_TIME]
  refine ⟨by omega, by omega, ?_, ?_, ?_⟩
  · simp [hneg]
  · simp [hpos, hne, jsMul, jsDiv, JsNum.ofInt, h420]
  · simp [hpos, hne, jsMul, jsDiv, JsNum.ofInt, h420]

/-- Witness of the amended C5 on the inputs "1", "2", "500". -/
theorem negative_working_time_efficiency_witness :
    parseInt "1" = some 1 ∧ parseInt "2" = some 2 ∧ parseInt "500" = some 500 ∧
    (calculatePowerLossValues "1" "2" "500").effectiveWorkingTime = 420 - 500 ∧
    (calculatePowerLossValues "1" "2" "500").powerEfficiency = some 0 :=
  have h := negative_working_time_efficiency "1" "2" "500" 1 2 500 (by decide) (by decide)
    (by decide) (by decide) (by decide)
  ⟨by decide, by decide, by decide, h.1, h.2.2.1⟩

/-- C6. On the inputs good = 90, scrap = 10, emergencyBreak = 0,
`calculatePowerLoss` produces totalProducts = 100, scrapPercentage = 10.00,
effectiveWorkingTime = 420, goodProductPowerTime = 378.00, scrapPowerLoss =
42.00, totalPowerLoss = 42.00 and powerEfficiency = 90.00. -/
theorem calculatePowerLoss_scenario :
    calculatePowerLoss "90" "10" "0" =
      { totalProducts := 100
        scrapPercentage := "10.00"
        effectiveWorkingTime := 420
        goodProductPowerTime := "378.00"
        scrapPowerLoss := "42.00"
        emergencyBreakPowerLoss := 0
        totalPowerLoss := "42.00"
        powerEfficiency := "90.00"
        totalBreakTime := 60 } := by
  decide!

/-! ## The Cylinder Status view -/

/-- The constant `level` on a reading that `parseInt` turns into the integer `r`. -/
theorem level_of_parse {d : TelemetryRecord} {r : Int}
    (h : parseInt (fieldToString (d.field "loadcell_out")) = some r) :
    CylinderStatus.fetchData.level d = some (percentage r 300) := by
  simp [CylinderStatus.fetchData.level, parseIntField, h, jsDiv, jsMul, mathMax, mathMin,
    percentage, clamp]

/-- The constant `level` on a reading that `parseInt` cannot read is `NaN`. -/
theorem level_of_nan {d : TelemetryRecord}
    (h : parseInt (fieldToString (d.field "loadcell_out")) = none) :
    CylinderStatus.fetchData.level d = none := by
  simp [CylinderStatus.fetchData.level, parseIntField, h, jsDiv, jsMul, mathMax, mathMin]

theorem percentage_mem (raw : ℚ) : 0 ≤ percentage raw 300 ∧ percentage raw 300 ≤ 100 := by
  unfold percentage clamp
  constructor
  · exact le_min (by norm_num) (le_max_left _ _)
  · exact min_le_left _ _

theorem percentage_pos {raw : ℚ} (h : 0 < raw) : 0 < percentage raw 300 := by
  unfold percentage clamp
  have : 0 < raw / 300 * 100 := by positivity
  exact lt_min (by norm_num) (lt_max_of_lt_right this)

/-- The clamp computed by `fetchData` before the `|| 25` fallback is monotone in
the reading. -/
theorem percentage_mono {a b : ℚ} (h : a ≤ b) : percentage a 300 ≤ percentage b 300 := by
  unfold percentage clamp
  have : a / 300 * 100 ≤ b / 300 * 100 := by linarith
  exact min_le_min le_rfl (max_le_max le_rfl this)

/-- A character that is not a decimal digit starts no numeral of radix 10. -/
theorem radixDigits_ten_of_not_digit (c : Char) (cs : List Char)
    (h : ¬ (48 ≤ c.toNat ∧ c.toNat ≤ 57)) : radixDigits 10 (c :: cs) = [] := by
  unfold radixDigits digitValue
  simp only [h, if_false]
  by_cases h1 : 97 ≤ c.toNat ∧ c.toNat ≤ 122
  · have : ¬ (c.toNat - 87 < 10) := by omega
    simp [h1, this]
  · by_cases h2 : 65 ≤ c.toNat ∧ c.toNat ≤ 90
    · have : ¬ (c.toNat - 55 < 10) := by omega
      simp [h1, h2, this]
    · simp [h1, h2]

/-- Where `parseFloat` finds no numeral after the sign, `parseInt` finds none
either. -/
theorem parseDigits_of_parseUnsignedDecimal_nan (cs : List Char)
    (h : parseUnsignedDecimal cs = .nan) : parseDigits cs = none := by
  have hint : (takeDigits cs).1 = [] := by
    unfold parseUnsignedDecimal at h
    split at h
    · cases h
    · by_contra hne
      simp [hne] at h
  cases cs with
  | nil => simp [parseDigits, radixDigits]
  | cons a rest =>
    have hnd : ¬ (48 ≤ a.toNat ∧ a.toNat ≤ 57) := by
      intro hd
      simp [takeDigits, hd] at hint
    have hr := radixDigits_ten_of_not_digit a rest hnd
    have h48 : ¬ a.toNat = 48 := by omega
    cases rest with
    | nil => simp [parseDigits, hr]
    | cons b rest2 => simp [parseDigits, h48, hr]

/-- A reading that `parseFloat` cannot read is one that `parseInt` cannot read. -/
theorem parseInt_of_parseFloat_nan (s : String) (h : parseFloat s = .nan) :
    parseInt s = none := by
  have hneg : ∀ x : JsNumber, x.neg = .nan → x = .nan := by
    intro x hx
    cases x <;> simp_all [JsNumber.neg]
  unfold parseFloat at h
  unfold parseInt
  cases hcs : s.toList.dropWhile isStrWhiteSpaceChar with
  | nil => rfl
  | cons c cs =>
    rw [hcs] at h
    simp only at h ⊢
    by_cases h45 : c.toNat = 45
    · simp only [h45, if_true] at h ⊢
      rw [parseDigits_of_parseUnsignedDecimal_nan cs (hneg _ h)]
      rfl
    · by_cases h43 : c.toNat = 43
      · simp only [h45, h43, if_true, if_false] at h ⊢
        rw [parseDigits_of_parseUnsignedDecimal_nan cs h]
        rfl
      · simp only [h45, h43, if_false] at h ⊢
        rw [parseDigits_of_parseUnsignedDecimal_nan (c :: cs) h]
        rfl

/-- C7, as stated, fails: for a response without `loadcell_out` the extension
level and the target level set are 25, not clamp(0 / 300 * 100, 0, 100), which
is 0. -/
theorem extension_level_counterexample :
    (CylinderStatus.fetchData CylinderState.initial
      (.envelope true (some []))).extensionLevel = some 25 ∧
    (CylinderStatus.fetchData CylinderState.initial
      (.envelope true (some []))).targetLevel = some 25 ∧
    percentage 0 300 = 0 ∧
    (CylinderStatus.fetchData CylinderState.initial
      (.envelope true (some []))).extensionLevel ≠ some (percentage 0 300) := by
  decide!

/-- C7, amended. After a successful poll the extension level and the target
level are equal; for a load-cell reading that is a positive integer, one that
`parseInt` and `parseFloat` both read as the same positive integer, they are
clamp(loadcell_out / 300 * 100, 0, 100), and for an absent or non-numeric
reading, one that `parseFloat` reads as `NaN`, they are the default 25. -/
theorem extension_level_of_response (s : CylinderState) (d : TelemetryRecord)
    (hread : parseFloat (fieldToString (d.field "loadcell_out")) = .nan ∨
      ∃ r : Int, 0 < r ∧ parseInt (fieldToString (d.field "loadcell_out")) = some r ∧
        parseFloat (fieldToString (d.field "loadcell_out")) = .finite r) :
    let s' := CylinderStatus.fetchData s (.envelope true (some d))
    s'.targetLevel = s'.extensionLevel ∧
    s'.extensionLevel =
      match parseFloat (fieldToString (d.field "loadcell_out")) with
      | .finite loadcell_out => some (percentage loadcell_out 300)
      | _ => some 25 := by
  refine ⟨rfl, ?_⟩
  show jsOr (CylinderStatus.fetchData.level d) (some 25) = _
  rcases hread with hnan | ⟨r, hr, hint, hfloat⟩
  · rw [hnan, level_of_nan (parseInt_of_parseFloat_nan _ hnan)]
    rfl
  · have hrq : (0 : ℚ) < r := by exact_mod_cast hr
    rw [hfloat, level_of_parse hint]
    simp [jsOr, (percentage_pos hrq).ne']

/-- Witness of the amended C7: the reading "150" gives the level 50. -/
theorem extension_level_of_response_witness :
    parseInt (fieldToString
      (TelemetryRecord.field [("loadcell_out", "150")] "loadcell_out")) = some 150 ∧
    parseFloat (fieldToString
      (TelemetryRecord.field [("loadcell_out", "150")] "loadcell_out")) = .finite 150 ∧
    (CylinderStatus.fetchData CylinderState.initial
      (.envelope true (some [("loadcell_out", "150")]))).extensionLevel = some 50 :=
  ⟨by decide, by decide!,
    (extension_level_of_response CylinderState.initial [("loadcell_out", "150")]
      (Or.inr ⟨150, by decide, by decide, by decide!⟩)).2.trans (by decide!)⟩

/-- C8 fails on the code: the reading "0" sets the extension level 25 and the
larger reading "3" sets the smaller level 1. -/
theorem extension_level_not_monotone :
    parseInt "0" = some 0 ∧ parseInt "3" = some 3 ∧
    (CylinderStatus.fetchData CylinderState.initial
      (.envelope true (some [("loadcell_out", "0")]))).extensionLevel = some 25 ∧
    (CylinderStatus.fetchData CylinderState.initial
      (.envelope true (some [("loadcell_out", "3")]))).extensionLevel = some 1 := by
  decide!

/-- C9. For every successful response with a `data` object, whatever its
`loadcell_out` is (negative, large, absent or non-numeric), the extension level
and the target level set from it are one finite number within [0, 100]. -/
theorem extension_level_bounded (s : CylinderState) (d : TelemetryRecord) :
    ∃ q : ℚ,
      (CylinderStatus.fetchData s (.envelope true (some d))).extensionLevel = some q ∧
      (CylinderStatus.fetchData s (.envelope true (some d))).targetLevel = some q ∧
      0 ≤ q ∧ q ≤ 100 := by
  show ∃ q : ℚ, jsOr (CylinderStatus.fetchData.level d) (some 25) = some q ∧
    jsOr (CylinderStatus.fetchData.level d) (some 25) = some q ∧ 0 ≤ q ∧ q ≤ 100
  cases h : parseInt (fieldToString (d.field "loadcell_out")) with
  | none => exact ⟨25, by simp [level_of_nan h, jsOr], by simp [level_of_nan h, jsOr],
      by norm_num, by norm_num⟩
  | some r =>
    rw [level_of_parse h]
    by_cases h0 : percentage r 300 = 0
    · exact ⟨25, by simp [jsOr, h0], by simp [jsOr, h0], by norm_num, by norm_num⟩
    · exact ⟨percentage r 300, by simp [jsOr, h0], by simp [jsOr, h0],
        (percentage_mem r).1, (percentage_mem r).2⟩

/-- C10, as stated, fails: the pressure 200 is not below 200 and lies between
200 and 300, yet `getPressureColor` gives it the normal (green) class and not
the elevated (yellow) one. -/
theorem pressure_color_counterexample :
    CylinderStatus.getPressureColor (some 200) = "text-green-400" ∧
    CylinderStatus.getPressureColor (some 200) ≠ "text-yellow-400" ∧
    ¬ ((200 : ℚ) < 200) ∧ ((200 : ℚ) ≤ 200 ∧ (200 : ℚ) ≤ 300) := by
  decide!

/-- C10, amended. `getPressureColor` classifies a pressure as normal (green)
exactly when it is at most 200, as elevated (yellow) exactly when it is above
200 and at most 300, and as critical (red) exactly when it is above 300. -/
theorem pressure_color_bands (p : ℚ) :
    (CylinderStatus.getPressureColor (some p) = "text-green-400" ↔ p ≤ 200) ∧
    (CylinderStatus.getPressureColor (some p) = "text-yellow-400" ↔ 200 < p ∧ p ≤ 300) ∧
    (CylinderStatus.getPressureColor (some p) = "text-red-400" ↔ 300 < p) := by
  unfold CylinderStatus.getPressureColor jsGt
  by_cases h3 : p > 300
  · have h2 : p > 200 := by linarith
    have hn : ¬ p ≤ 200 := by linarith
    have hn3 : ¬ p ≤ 300 := by linarith
    simp [h3, hn, hn3]
  · by_cases h2 : p > 200
    · have hn : ¬ p ≤ 200 := by linarith
      have hle : p ≤ 300 := by linarith
      simp [h3, h2, hn, hle]
    · have hle : p ≤ 200 := by linarith
      simp [h3, h2, hle]

/-! ## Threshold classes and indicator flags -/

/-- The three-band shape shared by the two colour functions, for a finite value
`v` and thresholds `lo ≤ hi`. -/
theorem three_bands (v lo hi : ℚ) (h : lo ≤ hi) :
    let c := if jsGt (some v) (some hi) then "text-red-400"
      else if jsGt (some v) (some lo) then "text-yellow-400" else "text-green-400"
    (c = "text-red-400" ↔ v > hi) ∧ (c = "text-yellow-400" ↔ lo < v ∧ v ≤ hi) ∧
    (c = "text-green-400" ↔ v ≤ lo) := by
  simp only [jsGt]
  by_cases h3 : v > hi
  · have hn : ¬ v ≤ lo := by linarith
    have hn3 : ¬ v ≤ hi := by linarith
    simp [h3, hn, hn3]
  · by_cases h2 : v > lo
    · have hn : ¬ v ≤ lo := by linarith
      have hle : v ≤ hi := by linarith
      simp [h3, h2, hn, hle]
    · have hle : v ≤ lo := by linarith
      simp [h3, h2, hle]

/-- C11. Both classifiers compare with a strict greater-than, so a boundary
value falls in the lower band: for every finite value v, `getPressureColor`
gives critical iff v > 300, elevated iff 200 < v ≤ 300 and normal iff v ≤ 200,
and `getTemperatureColor` gives critical iff v > 85, elevated iff 75 < v ≤ 85
and normal iff v ≤ 75. Every value, `NaN` included, gets one of the three
classes, and the three are distinct, so it gets exactly one. -/
theorem threshold_bands :
    (∀ v : ℚ,
      (CylinderStatus.getPressureColor (some v) = "text-red-400" ↔ v > 300) ∧
      (CylinderStatus.getPressureColor (some v) = "text-yellow-400" ↔ 200 < v ∧ v ≤ 300) ∧
      (CylinderStatus.getPressureColor (some v) = "text-green-400" ↔ v ≤ 200) ∧
      (CylinderStatus.getTemperatureColor (some v) = "text-red-400" ↔ v > 85) ∧
      (CylinderStatus.getTemperatureColor (some v) = "text-yellow-400" ↔ 75 < v ∧ v ≤ 85) ∧
      (CylinderStatus.getTemperatureColor (some v) = "text-green-400" ↔ v ≤ 75)) ∧
    (∀ x : JsNum,
      (CylinderStatus.getPressureColor x = "text-red-400" ∨
        CylinderStatus.getPressureColor x = "text-yellow-400" ∨
        CylinderStatus.getPressureColor x = "text-green-400") ∧
      (CylinderStatus.getTemperatureColor x = "text-red-400" ∨
        CylinderStatus.getTemperatureColor x = "text-yellow-400" ∨
        CylinderStatus.getTemperatureColor x = "text-green-400")) ∧
    "text-red-400" ≠ "text-yellow-400" ∧ "text-red-400" ≠ "text-green-400" ∧
    "text-yellow-400" ≠ "text-green-400" := by
  refine ⟨fun v => ?_, fun x => ?_, by decide, by decide, by decide⟩
  · have hp := three_bands v 200 300 (by norm_num)
    have ht := three_bands v 75 85 (by norm_num)
    exact ⟨hp.1, hp.2.1, hp.2.2, ht.1, ht.2.1, ht.2.2⟩
  · unfold CylinderStatus.getPressureColor CylinderStatus.getTemperatureColor
    constructor
    · by_cases h1 : jsGt x (some 300) = true
      · simp [h1]
      · by_cases h2 : jsGt x (some 200) = true <;> simp [h1, h2]
    · by_cases h1 : jsGt x (some 85) = true
      · simp [h1]
      · by_cases h2 : jsGt x (some 75) = true <;> simp [h1, h2]

/-- C12. `getCylinderStatus` is true exactly when `parseInt` of the field is 1:
it is false for every other integer the field is read as, for a field that is
not numeric and for an absent field, and it is a total function. In
particular, on the decimal numeral of a natural number n it is true iff
n = 1. -/
theorem getCylinderStatus_iff :
    (∀ value : Option String,
      CylinderStatus.getCylinderStatus value = true ↔
        parseInt (fieldToString value) = some 1) ∧
    (∀ (value : Option String) (n : Int), parseInt (fieldToString value) = some n → n ≠ 1 →
      CylinderStatus.getCylinderStatus value = false) ∧
    (∀ value : Option String, parseInt (fieldToString value) = none →
      CylinderStatus.getCylinderStatus value = false) ∧
    CylinderStatus.getCylinderStatus none = false ∧
    (∀ n : Nat, CylinderStatus.getCylinderStatus (some (toString n)) = decide (n = 1)) := by
  have key : ∀ value : Option String,
      CylinderStatus.getCylinderStatus value = true ↔
        parseInt (fieldToString value) = some 1 := by
    intro value
    unfold CylinderStatus.getCylinderStatus parseIntField
    cases h : parseInt (fieldToString value) with
    | none => simp
    | some n =>
      have hc : ((n : ℚ) = 1) ↔ n = 1 := by exact_mod_cast Iff.rfl
      simp [hc]
  refine ⟨key, ?_, ?_, by decide, ?_⟩
  · intro value n hn hne
    cases hb : CylinderStatus.getCylinderStatus value with
    | false => rfl
    | true =>
      have := (key value).1 hb
      rw [hn] at this
      cases this
      exact absurd rfl hne
  · intro value hn
    cases hb : CylinderStatus.getCylinderStatus value with
    | false => rfl
    | true =>
      have := (key value).1 hb
      rw [hn] at this
      cases this
  · intro n
    cases hb : CylinderStatus.getCylinderStatus (some (toString n)) with
    | false =>
      symm
      rw [decide_eq_false_iff_not]
      intro h1
      have : CylinderStatus.getCylinderStatus (some (toString n)) = true :=
        (key _).2 (by rw [h1]; exact parseInt_toString 1)
      rw [hb] at this
      cases this
    | true =>
      symm
      rw [decide_eq_true_iff]
      have := (key _).1 hb
      have h2 : parseInt (toString n) = some (1 : Int) := this
      rw [parseInt_toString] at h2
      have : (n : Int) = 1 := by simpa using h2
      exact_mod_cast this

/-! ## getValue -/

/-- C13. `getValue` returns 0 when no record has been fetched, when the field
is absent or null and when `parseFloat` of its value is `NaN`; otherwise it
returns the number `parseFloat` reads. It is a total function and never returns
`NaN`. A field that holds a number gives that number, and a boolean gives 0. -/
theorem getValue_spec :
    (∀ field : String, getValue none field = .finite 0) ∧
    (∀ (d : JsonObject) (field : String), d.get field = none →
      getValue (some d) field = .finite 0) ∧
    (∀ (d : JsonObject) (field : String), d.get field = some .null →
      getValue (some d) field = .finite 0) ∧
    (∀ (d : JsonObject) (field s : String), d.get field = some (.str s) →
      parseFloat s = .nan → getValue (some d) field = .finite 0) ∧
    (∀ (d : JsonObject) (field s : String), d.get field = some (.str s) →
      parseFloat s ≠ .nan → getValue (some d) field = parseFloat s) ∧
    (∀ (data : Option JsonObject) (field : String), getValue data field ≠ .nan) ∧
    (∀ (d : JsonObject) (field : String) (q : ℚ), d.get field = some (.num q) →
      getValue (some d) field = .finite q) ∧
    (∀ (d : JsonObject) (field : String) (b : Bool), d.get field = some (.bool b) →
      getValue (some d) field = .finite 0) := by
  have horz : ∀ x : JsNumber, x.orZero ≠ .nan := by
    intro x
    cases x with
    | nan => simp [JsNumber.orZero]
    | infinity n => simp [JsNumber.orZero]
    | finite q => by_cases hq : q = 0 <;> simp [JsNumber.orZero, hq]
  refine ⟨fun _ => rfl, ?_, ?_, ?_, ?_, ?_, ?_, ?_⟩
  · intro d field h
    simp [getValue, h]
  · intro d field h
    simp [getValue, h]
  · intro d field s h hs
    simp [getValue, h, JsonValue.parseFloat, hs, JsNumber.orZero]
  · intro d field s h hs
    simp only [getValue, h, JsonValue.parseFloat]
    cases hp : parseFloat s with
    | nan => exact absurd hp hs
    | infinity n => rfl
    | finite q =>
      by_cases hq : q = 0
      · simp [JsNumber.orZero, hq]
      · simp [JsNumber.orZero, hq]
  · intro data field
    cases data with
    | none => simp [getValue]
    | some d =>
      simp only [getValue]
      cases d.get field with
      | none => simp
      | some v =>
        cases v with
        | null => simp
        | bool b => exact horz _
        | num q => exact horz _
        | str s => exact horz _
        | composite text => exact horz _
  · intro d field q h
    by_cases hq : q = 0
    · simp [getValue, h, JsonValue.parseFloat, JsNumber.orZero, hq]
    · simp [getValue, h, JsonValue.parseFloat, JsNumber.orZero, hq]
  · intro d field b h
    have hb : (JsonValue.bool b).parseFloat = .nan := by
      cases b <;> decide!
    simp [getValue, h, hb, JsNumber.orZero]

/-- Witness of C13: on a record with a numeric, a null and a non-numeric field
`getValue` gives 12.5, 0 and 0. -/
theorem getValue_spec_witness :
    getValue (some [("Total_kW", .str "12.5"), ("pv", .null), ("avg_PF", .str "n/a")])
      "Total_kW" = .finite (25 / 2) ∧
    getValue (some [("Total_kW", .str "12.5"), ("pv", .null), ("avg_PF", .str "n/a")])
      "pv" = .finite 0 ∧
    getValue (some [("Total_kW", .str "12.5"), ("pv", .null), ("avg_PF", .str "n/a")])
      "avg_PF" = .finite 0 :=
  ⟨(getValue_spec.2.2.2.2.1 _ "Total_kW" "12.5" (by decide) (by decide!)).trans (by decide!),
    getValue_spec.2.2.1 _ "pv" (by decide),
    getValue_spec.2.2.2.1 _ "avg_PF" "n/a" (by decide) (by decide!)⟩

/-! ## Connection state -/

/-- C14, as stated, fails: the Energy view starts in the state connected, not
connecting. -/
theorem initial_connection_counterexample :
    EnergyState.initial.connectionStatus = "connected" ∧
    EnergyState.initial.connectionStatus ≠ "connecting" := by
  decide

/-- The Energy view never sets a status other than connected and disconnected. -/
theorem energy_status_values (s : EnergyState) (r : FetchResult JsonObject) :
    (EnergyManagement.fetchData s r).connectionStatus = "connected" ∨
    (EnergyManagement.fetchData s r).connectionStatus = "disconnected" := by
  cases r with
  | envelope success data error => cases success <;> simp [EnergyManagement.fetchData]
  | failure message => simp [EnergyManagement.fetchData]

/-- C14, amended. The overview dashboard starts in the state connecting, and
`initializeData` sets connecting again before its fetches resolve. The Energy
view starts in the state connected and has no connecting state: after any
sequence of polls its status is connected or disconnected. -/
theorem initial_connection_state :
    DashboardState.initial.connectionStatus = "connecting" ∧
    (∀ s : DashboardState, (Dashboard.initializeData.start s).connectionStatus = "connecting") ∧
    EnergyState.initial.connectionStatus = "connected" ∧
    (∀ results : List (FetchResult JsonObject),
      (EnergyManagement.run EnergyState.initial results).connectionStatus = "connected" ∨
      (EnergyManagement.run EnergyState.initial results).connectionStatus = "disconnected") := by
  refine ⟨rfl, fun _ => rfl, rfl, ?_⟩
  intro results
  induction results using List.reverseRecOn with
  | nil => exact Or.inl rfl
  | append_singleton rs r _ =>
    simp only [EnergyManagement.run, List.foldl_append, List.foldl_cons, List.foldl_nil]
    exact energy_status_values _ r

/-- The status and the record after one poll of the Energy view. -/
theorem energy_poll (s : EnergyState) (r : FetchResult JsonObject) :
    (EnergyManagement.fetchData s r).connectionStatus =
      (if EnergyManagement.succeeded r then "connected" else "disconnected") ∧
    (EnergyManagement.succeeded r = false → (EnergyManagement.fetchData s r).data = s.data) := by
  cases r with
  | envelope success data error =>
    cases success <;> simp [EnergyManagement.fetchData, EnergyManagement.succeeded]
  | failure message => simp [EnergyManagement.fetchData, EnergyManagement.succeeded]

/-- The status and the record after one tick of the overview dashboard. -/
theorem dashboard_poll (s : DashboardState) (now : String) (r : FetchResult JsonObject) :
    (Dashboard.poll s now r).connectionStatus =
      (if Dashboard.succeeded r then "connected" else "disconnected") ∧
    (Dashboard.succeeded r = false →
      (Dashboard.poll s now r).currentData = s.currentData ∧
      (Dashboard.poll s now r).data = s.data) := by
  cases r with
  | envelope success data error =>
    cases success <;> cases data <;>
      simp [Dashboard.poll, Dashboard.fetchLatestData, Dashboard.succeeded]
  | failure message => simp [Dashboard.poll, Dashboard.fetchLatestData, Dashboard.succeeded]

/-- C15. In the Energy view and in the overview dashboard the status after a
poll depends only on the outcome of that poll: connected after a successful
one, disconnected after a failed one, from any previous state; a failed poll
leaves the displayed record unchanged and a successful one replaces it. Hence
three failed polls followed by a successful one give the statuses
disconnected, disconnected, disconnected, connected, the record being the
initial one through the failures and the new one at the end. -/
theorem connection_after_poll :
    (∀ (s : EnergyState) (r : FetchResult JsonObject),
      (EnergyManagement.fetchData s r).connectionStatus =
        (if EnergyManagement.succeeded r then "connected" else "disconnected")) ∧
    (∀ (s : DashboardState) (now : String) (r : FetchResult JsonObject),
      (Dashboard.poll s now r).connectionStatus =
        (if Dashboard.succeeded r then "connected" else "disconnected")) ∧
    (∀ (s : EnergyState) (f1 f2 f3 : FetchResult JsonObject) (d : Option JsonObject)
        (e : Option String),
      EnergyManagement.succeeded f1 = false → EnergyManagement.succeeded f2 = false →
      EnergyManagement.succeeded f3 = false →
      let s1 := EnergyManagement.fetchData s f1
      let s2 := EnergyManagement.fetchData s1 f2
      let s3 := EnergyManagement.fetchData s2 f3
      let s4 := EnergyManagement.fetchData s3 (.envelope true d e)
      [s1.connectionStatus, s2.connectionStatus, s3.connectionStatus, s4.connectionStatus]
        = ["disconnected", "disconnected", "disconnected", "connected"] ∧
      s1.data = s.data ∧ s2.data = s.data ∧ s3.data = s.data ∧ s4.data = d) ∧
    (∀ (s : DashboardState) (f1 f2 f3 : FetchResult JsonObject) (d : JsonObject)
        (e : Option String) (t1 t2 t3 t4 : String),
      Dashboard.succeeded f1 = false → Dashboard.succeeded f2 = false →
      Dashboard.succeeded f3 = false →
      let s1 := Dashboard.poll s t1 f1
      let s2 := Dashboard.poll s1 t2 f2
      let s3 := Dashboard.poll s2 t3 f3
      let s4 := Dashboard.poll s3 t4 (.envelope true (some d) e)
      [s1.connectionStatus, s2.connectionStatus, s3.connectionStatus, s4.connectionStatus]
        = ["disconnected", "disconnected", "disconnected", "connected"] ∧
      s1.currentData = s.currentData ∧ s2.currentData = s.currentData ∧
      s3.currentData = s.currentData ∧ s4.currentData = some (withTimestamp d t4)) := by
  refine ⟨fun s r => (energy_poll s r).1, fun s now r => (dashboard_poll s now r).1, ?_, ?_⟩
  · intro s f1 f2 f3 d e h1 h2 h3
    have c1 : (EnergyManagement.fetchData s f1).connectionStatus = "disconnected" := by
      rw [(energy_poll s f1).1, h1]; rfl
    have c2 : (EnergyManagement.fetchData (EnergyManagement.fetchData s f1)
        f2).connectionStatus = "disconnected" := by
      rw [(energy_poll _ f2).1, h2]; rfl
    have c3 : (EnergyManagement.fetchData (EnergyManagement.fetchData
        (EnergyManagement.fetchData s f1) f2) f3).connectionStatus = "disconnected" := by
      rw [(energy_poll _ f3).1, h3]; rfl
    have d1 := (energy_poll s f1).2 h1
    have d2 := ((energy_poll _ f2).2 h2).trans d1
    have d3 := ((energy_poll _ f3).2 h3).trans d2
    refine ⟨?_, d1, d2, d3, rfl⟩
    show [_, _, _, _] = _
    rw [c1, c2, c3]
    rfl
  · intro s f1 f2 f3 d e t1 t2 t3 t4 h1 h2 h3
    have c1 : (Dashboard.poll s t1 f1).connectionStatus = "disconnected" := by
      rw [(dashboard_poll s t1 f1).1, h1]; rfl
    have c2 : (Dashboard.poll (Dashboard.poll s t1 f1) t2 f2).connectionStatus
        = "disconnected" := by
      rw [(dashboard_poll _ t2 f2).1, h2]; rfl
    have c3 : (Dashboard.poll (Dashboard.poll (Dashboard.poll s t1 f1) t2 f2) t3
        f3).connectionStatus = "disconnected" := by
      rw [(dashboard_poll _ t3 f3).1, h3]; rfl
    have d1 := ((dashboard_poll s t1 f1).2 h1).1
    have d2 := (((dashboard_poll _ t2 f2).2 h2).1).trans d1
    have d3 := (((dashboard_poll _ t3 f3).2 h3).1).trans d2
    refine ⟨?_, d1, d2, d3, rfl⟩
    show [_, _, _, _] = _
    rw [c1, c2, c3]
    rfl

/-- Witness of C15 in the Energy view: a network failure, an unsuccessful
envelope and another failure, then a successful envelope, from the initial
state. -/
theorem connection_after_poll_witness :
    (EnergyManagement.run EnergyState.initial
      [.failure "Failed to fetch", .envelope false none none, .failure "Failed to fetch",
        .envelope true (some [("Total_kW", .str "3")]) none]).connectionStatus = "connected" ∧
    (EnergyManagement.run EnergyState.initial
      [.failure "Failed to fetch", .envelope false none none,
        .failure "Failed to fetch"]).data = none :=
  have h := connection_after_poll.2.2.1 EnergyState.initial (.failure "Failed to fetch")
    (.envelope false none none) (.failure "Failed to fetch")
    (some [("Total_kW", .str "3")]) none rfl rfl rfl
  ⟨(List.cons.inj (List.cons.inj (List.cons.inj h.1).2).2).2 |> fun h4 => (List.cons.inj h4).1,
    h.2.2.2.1⟩

/-! ## Displayed record of the Cylinder Status view -/

/-- C16, as stated, fails: after a successful poll with the reading "30", a
network failure replaces the displayed record by the hardcoded fallback
record, although it is not the first poll. -/
theorem displayed_record_counterexample :
    (CylinderStatus.run CylinderState.initial
      [.envelope true (some [("loadcell_out", "30")]), .failure]).data
      = some CylinderStatus.fallbackRecord ∧
    (CylinderStatus.run CylinderState.initial
      [.envelope true (some [("loadcell_out", "30")]), .failure]).data
      ≠ some [("loadcell_out", "30")] := by
  decide

/-- C16, amended. In the Cylinder Status view, after any sequence of polls, a
further successful poll displays its own record, a further poll whose envelope
has success false leaves the displayed record unchanged, and a further network
failure displays the hardcoded fallback record, whether or not it is the first
poll. -/
theorem displayed_record_after_poll (s : CylinderState) (outcomes : List PollOutcome) :
    (∀ d : TelemetryRecord,
      (CylinderStatus.run s (outcomes ++ [.envelope true (some d)])).data = some d) ∧
    (∀ d : Option TelemetryRecord,
      (CylinderStatus.run s (outcomes ++ [.envelope false d])).data
        = (CylinderStatus.run s outcomes).data) ∧
    (CylinderStatus.run s (outcomes ++ [.failure])).data
      = some CylinderStatus.fallbackRecord := by
  simp only [CylinderStatus.run, List.foldl_append, List.foldl_cons, List.foldl_nil]
  refine ⟨fun d => rfl, fun d => ?_, rfl⟩
  cases d <;> rfl

/-- C17. In the Cylinder Status view a response whose envelope has success
false leaves the displayed record, the extension level and the target level as
they were and sets the error message to 'Failed to fetch data'. -/
theorem unsuccessful_envelope_frame (s : CylinderState) (d : Option TelemetryRecord) :
    (CylinderStatus.fetchData s (.envelope false d)).data = s.data ∧
    (CylinderStatus.fetchData s (.envelope false d)).extensionLevel = s.extensionLevel ∧
    (CylinderStatus.fetchData s (.envelope false d)).targetLevel = s.targetLevel ∧
    (CylinderStatus.fetchData s (.envelope false d)).error = some "Failed to fetch data" := by
  cases d <;> exact ⟨rfl, rfl, rfl, rfl⟩

/-! ## Records and history of the overview dashboard -/

theorem JsonObject.get_set_same (o : JsonObject) (name : String) (v : JsonValue) :
    (o.set name v).get name = some v := by
  induction o with
  | nil => simp [JsonObject.set, JsonObject.get, List.lookup]
  | cons p rest ih =>
    obtain ⟨k, w⟩ := p
    by_cases hk : k = name
    · simp [JsonObject.set, JsonObject.get, List.lookup, hk]
    · have hb : (name == k) = false := by simpa using fun h : name = k => hk h.symm
      simp only [JsonObject.set, hk, if_false, JsonObject.get, List.lookup, hb]
      exact ih

theorem JsonObject.get_set_other (o : JsonObject) (name other : String) (v : JsonValue)
    (h : other ≠ name) : (o.set name v).get other = o.get other := by
  induction o with
  | nil =>
    have hb : (other == name) = false := by simpa using h
    simp [JsonObject.set, JsonObject.get, List.lookup, hb]
  | cons p rest ih =>
    obtain ⟨k, w⟩ := p
    by_cases hk : k = name
    · have hb : (other == k) = false := by simpa [hk] using h
      simp [JsonObject.set, JsonObject.get, List.lookup, hk, hb]
      simp [← hk, hb]
    · simp only [JsonObject.set, hk, if_false, JsonObject.get, List.lookup]
      cases hb : (other == k) with
      | true => rfl
      | false => exact ih

/-- C18, as stated, fails: for a data object whose `created_at` is the empty
string, the timestamp added is the capture time, not `created_at`. -/
theorem latest_timestamp_counterexample :
    JsonObject.get [("created_at", .str "")] "created_at" = some (.str "") ∧
    ((Dashboard.fetchLatestData DashboardState.initial "2025-01-01T00:00:00.000Z"
      (.envelope true (some [("created_at", .str "")]) none)).2.bind
        (fun r => r.get "timestamp")) = some (.str "2025-01-01T00:00:00.000Z") ∧
    ((Dashboard.fetchLatestData DashboardState.initial "2025-01-01T00:00:00.000Z"
      (.envelope true (some [("created_at", .str "")]) none)).2.bind
        (fun r => r.get "timestamp")) ≠ JsonObject.get [("created_at", .str "")] "created_at" := by
  decide

/-- C18, amended. On a successful envelope `fetchLatestData` returns, and stores
as the current record, the data object with a timestamp field added: the
timestamp is `created_at` when `created_at` is truthy, that is a non-empty
string, a number other than 0, `true`, an array or an object, and it is the
capture time when `created_at` is absent or falsy, that is `null`, the empty
string, 0 or `false`; every other field has the value it has in the data
object. -/
theorem latest_record_timestamp (s : DashboardState) (now : String) (d : JsonObject)
    (e : Option String) :
    ∃ r : JsonObject,
      (Dashboard.fetchLatestData s now (.envelope true (some d) e)).2 = some r ∧
      (Dashboard.fetchLatestData s now (.envelope true (some d) e)).1.currentData = some r ∧
      r.get "timestamp" = some
        (match d.get "created_at" with
          | some (.str c) => if c = "" then .str now else .str c
          | some (.num q) => if q = 0 then .str now else .num q
          | some (.bool b) => if b = true then .bool true else .str now
          | some (.composite text) => .composite text
          | some .null => .str now
          | none => .str now) ∧
      ∀ name : String, name ≠ "timestamp" → r.get name = d.get name := by
  refine ⟨withTimestamp d now, rfl, rfl, ?_, ?_⟩
  · unfold withTimestamp
    rw [JsonObject.get_set_same]
    cases d.get "created_at" with
    | none => rfl
    | some v =>
      cases v with
      | null => simp [truthy]
      | bool b => cases b <;> simp [truthy]
      | num q => by_cases hq : q = 0 <;> simp [truthy, hq]
      | str c => by_cases hc : c = "" <;> simp [truthy, hc]
      | composite text => simp [truthy]
  · intro name hname
    exact JsonObject.get_set_other d "timestamp" name _ hname

/-- An instance of the amended C18: a record whose `created_at` is the number 0
gets the capture time, and keeps its other field. -/
theorem latest_record_timestamp_witness :
    ∃ r : JsonObject,
      (Dashboard.fetchLatestData DashboardState.initial "2025-01-01T00:00:00.000Z"
        (.envelope true (some [("Total_kW", .num 3), ("created_at", .num 0)]) none)).2
        = some r ∧
      r.get "timestamp" = some (.str "2025-01-01T00:00:00.000Z") ∧
      r.get "Total_kW" = some (.num 3) :=
  have h := latest_record_timestamp DashboardState.initial "2025-01-01T00:00:00.000Z"
    [("Total_kW", .num 3), ("created_at", .num 0)] none
  ⟨h.choose, h.choose_spec.1, h.choose_spec.2.2.1.trans (by decide!),
    (h.choose_spec.2.2.2 "Total_kW" (by decide)).trans (by decide)⟩

/-- The last `n` entries of a non-empty list, for positive `n`, end with its
last entry. -/
theorem sliceLast_concat {α : Type} (n : Nat) (l : List α) (a : α) (hn : 0 < n) :
    (sliceLast n (l ++ [a])).getLast? = some a := by
  unfold sliceLast
  rw [List.getLast?_drop]
  have : ¬ (l ++ [a]).length ≤ (l ++ [a]).length - n := by
    simp only [List.length_append, List.length_singleton]
    omega
  rw [if_neg this]
  exact List.getLast?_concat l

theorem sliceLast_length {α : Type} (n : Nat) (l : List α) :
    (sliceLast n l).length = min n l.length := by
  unfold sliceLast
  rw [List.length_drop]
  omega

/-- C19. When a poll delivers a record whose timestamp differs from that of the
last history entry (or the history is empty), the new history is the last 50
entries of the old history followed by the new record: it is a suffix of that
list, so the order of the retained entries is preserved, the new record is its
last entry, it has min(50, n + 1) entries, and when the old history holds 50
entries exactly the oldest one is dropped. -/
theorem history_push (prevData : List JsonObject) (latestData : JsonObject)
    (h : ∀ last : JsonObject, prevData.getLast? = some last →
      latestData.get "timestamp" ≠ last.get "timestamp") :
    Dashboard.updateHistory prevData latestData = sliceLast 50 (prevData ++ [latestData]) ∧
    Dashboard.updateHistory prevData latestData <:+ prevData ++ [latestData] ∧
    (Dashboard.updateHistory prevData latestData).getLast? = some latestData ∧
    (Dashboard.updateHistory prevData latestData).length = min 50 (prevData.length + 1) ∧
    (prevData.length = 50 →
      Dashboard.updateHistory prevData latestData = prevData.tail ++ [latestData]) := by
  have hpush : Dashboard.updateHistory prevData latestData
      = sliceLast 50 (prevData ++ [latestData]) := by
    cases hl : prevData.getLast? with
    | none => simp [Dashboard.updateHistory, hl, truthy]
    | some last =>
      have := h last hl
      simp [Dashboard.updateHistory, hl, this]
  rw [hpush]
  refine ⟨rfl, List.drop_suffix _ _, sliceLast_concat 50 _ _ (by norm_num), ?_, ?_⟩
  · rw [sliceLast_length]
    simp
  · intro h50
    unfold sliceLast
    simp only [List.length_append, List.length_singleton, h50]
    rw [List.drop_append_of_le_length (by omega)]
    simp [List.drop_one]

/-- Witness of C19: a record stamped "t2" after a history whose last entry is
stamped "t1". -/
theorem history_push_witness :
    Dashboard.updateHistory [[("timestamp", .str "t1")]] [("timestamp", .str "t2")]
      = [[("timestamp", .str "t1")], [("timestamp", .str "t2")]] :=
  (history_push [[("timestamp", .str "t1")]] [("timestamp", .str "t2")]
    (by intro last hl; cases hl; decide)).1.trans (by decide)

theorem updateHistory_length_le (prevData : List JsonObject) (latestData : JsonObject) :
    (Dashboard.updateHistory prevData latestData).length ≤ max 50 prevData.length := by
  simp only [Dashboard.updateHistory]
  split
  · rw [sliceLast_length]
    exact le_trans (min_le_left _ _) (le_max_left _ _)
  · exact le_max_right _ _

theorem poll_history_le (s : DashboardState) (now : String) (r : FetchResult JsonObject) :
    (Dashboard.poll s now r).data.length ≤ max 50 s.data.length := by
  cases r with
  | envelope success data error =>
    cases success <;> cases data <;>
      simp only [Dashboard.poll, Dashboard.fetchLatestData]
    · exact le_max_right _ _
    · exact le_max_right _ _
    · exact le_max_right _ _
    · exact updateHistory_length_le _ _
  | failure message =>
    simp only [Dashboard.poll, Dashboard.fetchLatestData]
    exact le_max_right _ _

theorem run_history_le (ticks : List (String × FetchResult JsonObject)) :
    ∀ s : DashboardState, (Dashboard.run s ticks).data.length ≤ max 50 s.data.length := by
  induction ticks with
  | nil => intro s; exact le_max_right _ _
  | cons t rest ih =>
    intro s
    have h1 := ih (Dashboard.poll s t.1 t.2)
    have h2 := poll_history_le s t.1 t.2
    simp only [Dashboard.run, List.foldl_cons] at h1 ⊢
    exact le_trans h1 (max_le (le_max_left _ _) h2)

theorem addTimestamps_length (now : Nat → String) (items : List JsonObject) :
    ∀ i : Nat, (addTimestamps now i items).length = items.length := by
  induction items with
  | nil => intro i; rfl
  | cons item rest ih => intro i; simp [addTimestamps, ih]

/-- C20, as stated, fails: a historical response of 51 records is stored
whole, and a failed poll after it leaves the 51 records in the history. -/
theorem history_bound_counterexample :
    (Dashboard.run
      (Dashboard.fetchHistoricalData DashboardState.initial (fun _ => "2025-01-01T00:00:00.000Z")
        (.envelope true (some (List.replicate 51 [("created_at", .str "2025-01-01")])) none))
      [("2025-01-01T00:00:03.000Z", .failure "Failed to fetch")]).data.length = 51 := by
  decide

/-- C20, amended. When the historical response holds at most 50 records, as
the request `limit=50` asks, the history holds at most 50 records after the
historical load and any number of polls; the load can start from any state. A
longer response is stored whole. -/
theorem history_bounded (s : DashboardState) (now : Nat → String)
    (r : FetchResult (List JsonObject)) (ticks : List (String × FetchResult JsonObject))
    (hs : s.data.length ≤ 50)
    (hr : ∀ (data : List JsonObject) (e : Option String),
      r = .envelope true (some data) e → data.length ≤ 50) :
    (Dashboard.run (Dashboard.fetchHistoricalData s now r) ticks).data.length ≤ 50 := by
  have hload : (Dashboard.fetchHistoricalData s now r).data.length ≤ 50 := by
    cases r with
    | envelope success data error =>
      cases success with
      | false => exact hs
      | true =>
        cases data with
        | none => exact hs
        | some items =>
          simp only [Dashboard.fetchHistoricalData, List.length_reverse, addTimestamps_length]
          exact hr items error rfl
    | failure message => exact hs
  exact le_trans (run_history_le ticks _) (max_le le_rfl hload)

/-- Witness of the amended C20: a historical response of two records followed
by one successful poll gives a history of three records. -/
theorem history_bounded_witness :
    (Dashboard.run
      (Dashboard.fetchHistoricalData DashboardState.initial (fun _ => "t0")
        (.envelope true (some [[("created_at", .str "t2")], [("created_at", .str "t1")]]) none))
      [("t3", .envelope true (some [("Total_kW", .str "4")]) none)]).data.length ≤ 50 :=
  history_bounded DashboardState.initial (fun _ => "t0")
    (.envelope true (some [[("created_at", .str "t2")], [("created_at", .str "t1")]]) none)
    [("t3", .envelope true (some [("Total_kW", .str "4")]) none)]
    (by decide)
    (by
      intro data e h
      cases h
      decide)

/-! ## Historical load -/

theorem addTimestamps_getElem? (now : Nat → String) (items : List JsonObject) :
    ∀ k j : Nat, (addTimestamps now k items)[j]? =
      (items[j]?).map (fun item => withTimestamp item (now (k + j))) := by
  induction items with
  | nil => intro k j; simp [addTimestamps]
  | cons item rest ih =>
    intro k j
    cases j with
    | zero => simp [addTimestamps]
    | succ j =>
      simp only [addTimestamps, List.getElem?_cons_succ, ih (k + 1) j]
      have : k + 1 + j = k + (j + 1) := by omega
      rw [this]

/-- C21. For every successful historical response `fetchHistoricalData` stores
the records in the reverse of the order of the response: the stored history
has the length of the response, its entry at index i is the record at index
n - 1 - i of the response with its timestamp added, and the history is a
rearrangement of the timestamped records, so none is lost or duplicated. -/
theorem historical_reversed (s : DashboardState) (now : Nat → String)
    (data : List JsonObject) (e : Option String) :
    (Dashboard.fetchHistoricalData s now (.envelope true (some data) e)).data.length
      = data.length ∧
    (∀ i : Nat, i < data.length →
      (Dashboard.fetchHistoricalData s now (.envelope true (some data) e)).data[i]? =
        (data[data.length - 1 - i]?).map
          (fun item => withTimestamp item (now (data.length - 1 - i)))) ∧
    (Dashboard.fetchHistoricalData s now (.envelope true (some data) e)).data.reverse
      = addTimestamps now 0 data ∧
    List.Perm (Dashboard.fetchHistoricalData s now (.envelope true (some data) e)).data
      (addTimestamps now 0 data) := by
  simp only [Dashboard.fetchHistoricalData]
  refine ⟨by simp [addTimestamps_length], ?_, List.reverse_reverse _, List.reverse_perm _⟩
  intro i hi
  rw [List.getElem?_reverse (by simpa [addTimestamps_length] using hi)]
  rw [addTimestamps_length, addTimestamps_getElem?]
  simp

/-- Witness of C21: a response of three records, newest first, is stored
oldest first. -/
theorem historical_reversed_witness :
    (Dashboard.fetchHistoricalData DashboardState.initial (fun _ => "now")
      (.envelope true (some [[("created_at", .str "t3")], [("created_at", .str "t2")],
        [("created_at", .str "t1")]]) none)).data[0]?
      = some [("created_at", .str "t1"), ("timestamp", .str "t1")] :=
  ((historical_reversed DashboardState.initial (fun _ => "now")
    [[("created_at", .str "t3")], [("created_at", .str "t2")], [("created_at", .str "t1")]]
    none).2.1 0 (by decide)).trans (by decide)

/-! ## Progress bars -/

/-- C23, as stated, fails: for the value -50 and the maximum 100 the fill is 50,
not clamp(-50 / 100 * 100, 0, 100), which is 0. -/
theorem progress_bar_counterexample :
    ProgressBar.percentage (.finite (-50)) (.finite 100) = .finite 50 ∧
    percentage (-50) 100 = 0 ∧
    ProgressBar.percentage (.finite (-50)) (.finite 100) ≠ .finite (percentage (-50) 100) := by
  decide!

/-- C23, amended. The fill percentage of `ProgressBar` is computed from the
absolute value: for every value and every positive max it is
clamp(|value| / max * 100, 0, 100), which is clamp(value / max * 100, 0, 100)
when the value is not negative. -/
theorem progress_bar_fill (value max : ℚ) (hmax : 0 < max) :
    ProgressBar.percentage (.finite value) (.finite max) = .finite (percentage |value| max) ∧
    (0 ≤ value →
      ProgressBar.percentage (.finite value) (.finite max) = .finite (percentage value max)) := by
  have hne : max ≠ 0 := hmax.ne'
  have hnonneg : 0 ≤ |value| / max * 100 := by positivity
  have h1 : ProgressBar.percentage (.finite value) (.finite max)
      = .finite (percentage |value| max) := by
    simp only [ProgressBar.percentage, JsNumber.abs, JsNumber.div, hne, if_false, JsNumber.mul,
      JsNumber.min, percentage, clamp, max_eq_right hnonneg]
    rw [min_comm]
  refine ⟨h1, fun h0 => ?_⟩
  rw [h1, abs_of_nonneg h0]

/-- Witness of the amended C23: the value 25 on a bar of maximum 50 fills half. -/
theorem progress_bar_fill_witness :
    ProgressBar.percentage (.finite 25) (.finite 50) = .finite 50 :=
  ((progress_bar_fill 25 50 (by norm_num)).2 (by norm_num)).trans (by decide!)

/-! ## Relations between the results of the calculator -/

/-- C24, as stated, fails in the doubles of the program: with 7 good and 153
scrap products powerEfficiency is 4.375, displayed 4.38, for an emergency break
of 0 and a double just below it, displayed 4.37, for an emergency break of 1;
and with 1 good and 2 scrap products it differs from 100 - scrapPercentage. -/
theorem efficiency_counterexample :
    (calculatePowerLossDoubles "7" "153" "0").powerEfficiency = .finite (35 / 8) ∧
    (calculatePowerLossDoubles "7" "153" "1").powerEfficiency
      = .finite (4925812092436479 / 1125899906842624) ∧
    (calculatePowerLossDoubles "7" "153" "0").powerEfficiency
      ≠ (calculatePowerLossDoubles "7" "153" "1").powerEfficiency ∧
    toFixed2 (calculatePowerLossDoubles "7" "153" "0").powerEfficiency.toJsNum = "4.38" ∧
    toFixed2 (calculatePowerLossDoubles "7" "153" "1").powerEfficiency.toJsNum = "4.37" ∧
    (calculatePowerLossDoubles "1" "2" "0").powerEfficiency
      ≠ ((JsNumber.finite 100).sub
          (calculatePowerLossDoubles "1" "2" "0").scrapPercentage).rounded := by
  decide!

/-- C24, amended. For counts read as integers with at least one product in
total and an emergency break below 420 minutes, powerEfficiency is good /
(good + scrap) * 100, which is 100 - scrapPercentage, exactly, over rational
arithmetic: the emergency break time cancels out of it. -/
theorem efficiency_is_good_share (goodProducts scrapProducts emergencyBreakTime : String)
    (good scrap emergencyBreak : Int)
    (hg : parseInt goodProducts = some good) (hs : parseInt scrapProducts = some scrap)
    (he : parseInt emergencyBreakTime = some emergencyBreak)
    (hpos : good + scrap > 0) (hlt : emergencyBreak < 420) :
    let v := calculatePowerLossValues goodProducts scrapProducts emergencyBreakTime
    v.powerEfficiency = some ((good : ℚ) / ((good : ℚ) + scrap) * 100) ∧
    ∃ p : ℚ, v.scrapPercentage = some p ∧ v.powerEfficiency = some (100 - p) := by
  have hG := parseIntOr_zero_of_parse hg
  have hS := parseIntOr_zero_of_parse hs
  have hE := parseIntOr_zero_of_parse he
  have hne : (good : ℚ) + (scrap : ℚ) ≠ 0 := by exact_mod_cast hpos.ne'
  have hw : 480 - (60 + emergencyBreak) > 0 := by omega
  have hwq : (480 : ℚ) - (60 + (emergencyBreak : ℚ)) ≠ 0 := by
    have : ((480 - (60 + emergencyBreak) : Int) : ℚ) ≠ 0 := by exact_mod_cast hw.ne'
    simpa using this
  have hpe : (calculatePowerLossValues goodProducts scrapProducts
      emergencyBreakTime).powerEfficiency = some ((good : ℚ) / ((good : ℚ) + scrap) * 100) := by
    simp only [calculatePowerLossValues, hG, hS, hE, TOTAL_POWER_TIME, REGULAR_BREAK_TIME]
    simp [hpos, hw, hne, hwq, jsMul, jsDiv, JsNum.ofInt]
  refine ⟨hpe, (scrap : ℚ) / ((good : ℚ) + scrap) * 100, ?_, ?_⟩
  · simp [calculatePowerLossValues, hG, hS, hpos, hne, jsMul, jsDiv, JsNum.ofInt]
  · rw [hpe]
    congr 1
    field_simp
    ring

/-- Witness of the amended C24: 90 good and 10 scrap products give the efficiency 90 with
an emergency break of 30 minutes. -/
theorem efficiency_is_good_share_witness :
    parseInt "90" = some 90 ∧ parseInt "10" = some 10 ∧ parseInt "30" = some 30 ∧
    (calculatePowerLossValues "90" "10" "30").powerEfficiency = some 90 :=
  ⟨by decide, by decide, by decide,
    (efficiency_is_good_share "90" "10" "30" 90 10 30 (by decide) (by decide) (by decide)
      (by decide) (by decide)).1.trans (by norm_num)⟩

/-- C25, as stated, fails in the doubles of the program: with 1 good and 4
scrap products and an emergency break of 1 the effective working time is 419,
but goodProductPowerTime + scrapPowerLoss is the double after 419 and
goodProductPowerTime + totalPowerLoss is the double after 420. -/
theorem time_conservation_counterexample :
    (calculatePowerLossDoubles "1" "4" "1").effectiveWorkingTime = .finite 419 ∧
    ((calculatePowerLossDoubles "1" "4" "1").goodProductPowerTime.add
      (calculatePowerLossDoubles "1" "4" "1").scrapPowerLoss).rounded
      = .finite (419 + 1 / 17592186044416) ∧
    ((calculatePowerLossDoubles "1" "4" "1").goodProductPowerTime.add
      (calculatePowerLossDoubles "1" "4" "1").totalPowerLoss).rounded
      = .finite (420 + 1 / 17592186044416) ∧
    ((calculatePowerLossDoubles "1" "4" "1").goodProductPowerTime.add
      (calculatePowerLossDoubles "1" "4" "1").scrapPowerLoss).rounded
      ≠ (calculatePowerLossDoubles "1" "4" "1").effectiveWorkingTime ∧
    ((calculatePowerLossDoubles "1" "4" "1").goodProductPowerTime.add
      (calculatePowerLossDoubles "1" "4" "1").totalPowerLoss).rounded ≠ .finite 420 := by
  decide!

/-- C25, amended. For counts read as integers with at least one product in
total and any emergency break, the calculator conserves time exactly, over
rational arithmetic: goodProductPowerTime + scrapPowerLoss =
effectiveWorkingTime and goodProductPowerTime + totalPowerLoss = 420. -/
theorem time_is_conserved (goodProducts scrapProducts emergencyBreakTime : String)
    (good scrap : Int)
    (hg : parseInt goodProducts = some good) (hs : parseInt scrapProducts = some scrap)
    (hpos : good + scrap > 0) :
    let v := calculatePowerLossValues goodProducts scrapProducts emergencyBreakTime
    ∃ goodTime scrapLoss totalLoss : ℚ,
      v.goodProductPowerTime = some goodTime ∧ v.scrapPowerLoss = some scrapLoss ∧
      v.totalPowerLoss = some totalLoss ∧
      goodTime + scrapLoss = v.effectiveWorkingTime ∧
      goodTime + totalLoss = 420 ∧
      (420 : Int) = TOTAL_POWER_TIME - REGULAR_BREAK_TIME := by
  have hG := parseIntOr_zero_of_parse hg
  have hS := parseIntOr_zero_of_parse hs
  have hne : (good : ℚ) + (scrap : ℚ) ≠ 0 := by exact_mod_cast hpos.ne'
  simp only [calculatePowerLossValues, hG, hS, TOTAL_POWER_TIME, REGULAR_BREAK_TIME]
  refine ⟨(good : ℚ) / ((good : ℚ) + scrap) * (480 - (60 + (parseIntOr emergencyBreakTime 0 : ℚ))),
    (scrap : ℚ) / ((good : ℚ) + scrap) * (480 - (60 + (parseIntOr emergencyBreakTime 0 : ℚ))),
    (scrap : ℚ) / ((good : ℚ) + scrap) * (480 - (60 + (parseIntOr emergencyBreakTime 0 : ℚ)))
      + (parseIntOr emergencyBreakTime 0 : ℚ), ?_, ?_, ?_, ?_, ?_, by norm_num⟩
  · simp [hpos, hne, jsMul, jsDiv, JsNum.ofInt]
  · simp [hpos, hne, jsMul, jsDiv, JsNum.ofInt]
  · simp [hpos, hne, jsMul, jsDiv, jsAdd, JsNum.ofInt]
  · push_cast
    field_simp
    ring
  · field_simp
    ring

/-- Witness of the amended C25: with 7 good and 3 scrap products and an emergency break of
500 minutes the good time and the total loss still add up to 420. -/
theorem time_is_conserved_witness :
    parseInt "7" = some 7 ∧ parseInt "3" = some 3 ∧
    ∃ goodTime scrapLoss totalLoss : ℚ,
      (calculatePowerLossValues "7" "3" "500").goodProductPowerTime = some goodTime ∧
      (calculatePowerLossValues "7" "3" "500").scrapPowerLoss = some scrapLoss ∧
      (calculatePowerLossValues "7" "3" "500").totalPowerLoss = some totalLoss ∧
      goodTime + scrapLoss = (calculatePowerLossValues "7" "3" "500").effectiveWorkingTime ∧
      goodTime + totalLoss = 420 ∧
      (420 : Int) = TOTAL_POWER_TIME - REGULAR_BREAK_TIME :=
  ⟨by decide, by decide, time_is_conserved "7" "3" "500" 7 3 (by decide) (by decide) (by decide)⟩

/-! ## Idempotence of the history update -/

/-- A record that is already the last entry, with a non-empty timestamp, is not
appended. -/
theorem updateHistory_of_last (history : List JsonObject) (record : JsonObject) (t : String)
    (hl : history.getLast? = some record) (ht : record.get "timestamp" = some (.str t))
    (hne : t ≠ "") : Dashboard.updateHistory history record = history := by
  simp [Dashboard.updateHistory, hl, ht, truthy, hne]

/-- C26. The poll update of the history is idempotent: for every history and
every record with a non-empty timestamp, updating twice with the record gives
the history that updating once gives. -/
theorem history_update_idempotent (history : List JsonObject) (record : JsonObject)
    (t : String) (ht : record.get "timestamp" = some (.str t)) (hne : t ≠ "") :
    Dashboard.updateHistory (Dashboard.updateHistory history record) record
      = Dashboard.updateHistory history record := by
  by_cases hpush : Dashboard.updateHistory history record
      = sliceLast 50 (history ++ [record])
  · rw [hpush]
    exact updateHistory_of_last _ record t (sliceLast_concat 50 _ _ (by norm_num)) ht hne
  · have hsame : Dashboard.updateHistory history record = history := by
      simp only [Dashboard.updateHistory] at hpush ⊢
      split
      · rename_i hc
        rw [if_pos hc] at hpush
        exact absurd rfl hpush
      · rfl
    rw [hsame, hsame]

/-- Witness of C26: a record stamped "t2" pushed twice after a record stamped
"t1" is kept once. -/
theorem history_update_idempotent_witness :
    Dashboard.updateHistory
      (Dashboard.updateHistory [[("timestamp", .str "t1")]] [("timestamp", .str "t2")])
      [("timestamp", .str "t2")]
      = [[("timestamp", .str "t1")], [("timestamp", .str "t2")]] :=
  (history_update_idempotent [[("timestamp", .str "t1")]] [("timestamp", .str "t2")] "t2"
    (by decide) (by decide)).trans (by decide)

/-! ## Bar heights of the line chart -/

theorem foldl_max_from_finite (c : ℚ) (qs : List ℚ) :
    ∀ a : ℚ, ∃ M : ℚ,
      (qs.map JsNumber.finite ++ [JsNumber.finite c]).foldl JsNumber.max (JsNumber.finite a)
        = JsNumber.finite M ∧
      c ≤ M ∧ (∀ q ∈ qs, q ≤ M) ∧ a ≤ M := by
  induction qs with
  | nil =>
    intro a
    exact ⟨Max.max a c, by simp [JsNumber.max], le_max_right _ _, by simp, le_max_left _ _⟩
  | cons r rs ih =>
    intro a
    obtain ⟨M, hM, hc, hall, ha⟩ := ih (Max.max a r)
    refine ⟨M, by simpa [JsNumber.max] using hM, hc, ?_, le_trans (le_max_left a r) ha⟩
    intro q hq
    rcases List.mem_cons.1 hq with h | h
    · rw [h]
      exact le_trans (le_max_right a r) ha
    · exact hall q h

theorem mathMaxAll_finite (c : ℚ) (qs : List ℚ) :
    ∃ M : ℚ, mathMaxAll (qs.map JsNumber.finite ++ [JsNumber.finite c]) = JsNumber.finite M ∧
      c ≤ M ∧ ∀ q ∈ qs, q ≤ M := by
  cases qs with
  | nil => exact ⟨c, by simp [mathMaxAll, JsNumber.max], le_rfl, by simp⟩
  | cons r rs =>
    obtain ⟨M, hM, hc, hall, hr⟩ := foldl_max_from_finite c rs r
    refine ⟨M, by simpa [mathMaxAll, JsNumber.max] using hM, hc, ?_⟩
    intro q hq
    rcases List.mem_cons.1 hq with h | h
    · rw [h]
      exact hr
    · exact hall q h

theorem foldl_min_from_finite (c : ℚ) (qs : List ℚ) :
    ∀ a : ℚ, ∃ m : ℚ,
      (qs.map JsNumber.finite ++ [JsNumber.finite c]).foldl JsNumber.min (JsNumber.finite a)
        = JsNumber.finite m ∧
      m ≤ c ∧ (∀ q ∈ qs, m ≤ q) ∧ m ≤ a := by
  induction qs with
  | nil =>
    intro a
    exact ⟨Min.min a c, by simp [JsNumber.min], min_le_right _ _, by simp, min_le_left _ _⟩
  | cons r rs ih =>
    intro a
    obtain ⟨m, hm, hc, hall, ha⟩ := ih (Min.min a r)
    refine ⟨m, by simpa [JsNumber.min] using hm, hc, ?_, le_trans ha (min_le_left a r)⟩
    intro q hq
    rcases List.mem_cons.1 hq with h | h
    · rw [h]
      exact le_trans ha (min_le_right a r)
    · exact hall q h

theorem mathMinAll_finite (c : ℚ) (qs : List ℚ) :
    ∃ m : ℚ, mathMinAll (qs.map JsNumber.finite ++ [JsNumber.finite c]) = JsNumber.finite m ∧
      m ≤ c ∧ ∀ q ∈ qs, m ≤ q := by
  cases qs with
  | nil => exact ⟨c, by simp [mathMinAll, JsNumber.min], le_rfl, by simp⟩
  | cons r rs =>
    obtain ⟨m, hm, hc, hall, hr⟩ := foldl_min_from_finite c rs r
    refine ⟨m, by simpa [mathMinAll, JsNumber.min] using hm, hc, ?_⟩
    intro q hq
    rcases List.mem_cons.1 hq with h | h
    · rw [h]
      exact hr
    · exact hall q h

/-! ## Rounding to a double keeps the order -/

theorem pow2_eq (e : Int) : pow2 e = (2 : ℚ) ^ e := by
  unfold pow2
  split
  · rename_i h
    have he : e = -(e.natAbs : ℤ) := by omega
    conv_rhs => rw [he]
    rw [zpow_neg, zpow_natCast, one_div]
  · rename_i h
    have he : e = (e.natAbs : ℤ) := by omega
    conv_rhs => rw [he]
    rw [zpow_natCast]

theorem log2Steps_spec : ∀ (steps n : Nat), 0 < n → n ≤ steps →
    2 ^ log2Steps steps n ≤ n ∧ n < 2 ^ (log2Steps steps n + 1) := by
  intro steps
  induction steps with
  | zero => intro n h0 h; omega
  | succ k ih =>
    intro n h0 h
    unfold log2Steps
    split
    · simp; omega
    · rename_i h2
      have h3 : 0 < n / 2 := by omega
      have h4 : n / 2 ≤ k := by omega
      obtain ⟨h5, h6⟩ := ih (n / 2) h3 h4
      constructor
      · rw [pow_succ]; omega
      · rw [pow_succ]; omega

theorem ratio_between (N D PA PB : ℚ) (hPA : 0 < PA) (hPB : 0 < PB)
    (h1 : PA ≤ N) (h2 : N < 2 * PA) (h3 : PB ≤ D) (h4 : D < 2 * PB) :
    PA / PB / 2 ≤ N / D ∧ N / D < PA / PB * 2 := by
  have hD : 0 < D := lt_of_lt_of_le hPB h3
  constructor
  · rw [div_div, div_le_div_iff₀ (by positivity) hD]
    nlinarith
  · rw [div_mul_eq_mul_div, div_lt_div_iff₀ hD hPB]
    nlinarith

theorem binaryExponent_spec (a : ℚ) (ha : 0 < a) :
    (2 : ℚ) ^ binaryExponent a ≤ a ∧ a < (2 : ℚ) ^ (binaryExponent a + 1) := by
  have hnum : 0 < a.num := Rat.num_pos.2 ha
  have hnat : 0 < a.num.natAbs := by omega
  obtain ⟨hA1, hA2⟩ := log2Steps_spec a.num.natAbs a.num.natAbs hnat le_rfl
  obtain ⟨hB1, hB2⟩ := log2Steps_spec a.den a.den a.den_pos le_rfl
  have hN : ((a.num.natAbs : ℕ) : ℚ) = (a.num : ℚ) := by
    rw [Nat.cast_natAbs, abs_of_pos hnum]
  have hA1q : (2 : ℚ) ^ log2Floor a.num.natAbs ≤ (a.num : ℚ) := by
    rw [← hN]; exact_mod_cast hA1
  have hA2q : (a.num : ℚ) < 2 * (2 : ℚ) ^ log2Floor a.num.natAbs := by
    rw [← hN, mul_comm, ← pow_succ]; exact_mod_cast hA2
  have hB1q : (2 : ℚ) ^ log2Floor a.den ≤ (a.den : ℚ) := by exact_mod_cast hB1
  have hB2q : (a.den : ℚ) < 2 * (2 : ℚ) ^ log2Floor a.den := by
    rw [mul_comm, ← pow_succ]; exact_mod_cast hB2
  obtain ⟨hlow, hhigh⟩ := ratio_between (a.num : ℚ) (a.den : ℚ) _ _
    (by positivity) (by positivity) hA1q hA2q hB1q hB2q
  rw [Rat.num_div_den] at hlow hhigh
  have he0 : (2 : ℚ) ^ ((log2Floor a.num.natAbs : ℤ) - (log2Floor a.den : ℤ))
      = (2 : ℚ) ^ log2Floor a.num.natAbs / (2 : ℚ) ^ log2Floor a.den := by
    rw [zpow_sub₀ (by norm_num), zpow_natCast, zpow_natCast]
  unfold binaryExponent
  simp only [pow2_eq]
  split
  · rename_i hlt
    refine ⟨?_, by simpa using hlt⟩
    rw [zpow_sub₀ (by norm_num), he0, zpow_one]
    exact hlow
  · rename_i hge
    refine ⟨not_lt.1 hge, ?_⟩
    rw [zpow_add₀ (by norm_num), he0, zpow_one]
    exact hhigh

theorem binaryExponent_mono (a b : ℚ) (ha : 0 < a) (hab : a ≤ b) :
    binaryExponent a ≤ binaryExponent b := by
  obtain ⟨h1, _⟩ := binaryExponent_spec a ha
  obtain ⟨_, h2⟩ := binaryExponent_spec b (lt_of_lt_of_le ha hab)
  have h3 : (2 : ℚ) ^ binaryExponent a < (2 : ℚ) ^ (binaryExponent b + 1) :=
    lt_of_le_of_lt h1 (lt_of_le_of_lt hab h2)
  have h4 := (zpow_lt_zpow_iff_right₀ (by norm_num : (1 : ℚ) < 2)).1 h3
  omega

theorem roundHalfEven_floor_le (x : ℚ) : ⌊x⌋ ≤ roundHalfEven x := by
  unfold roundHalfEven
  show ⌊x⌋ ≤ if x - (⌊x⌋ : ℤ) < 1 / 2 then ⌊x⌋ else if 1 / 2 < x - (⌊x⌋ : ℤ) then ⌊x⌋ + 1
    else if ⌊x⌋ % 2 = 0 then ⌊x⌋ else ⌊x⌋ + 1
  split
  · exact le_rfl
  · split
    · omega
    · split <;> omega

theorem roundHalfEven_le_of_le_intCast (x : ℚ) (n : ℤ) (h : x ≤ n) : roundHalfEven x ≤ n := by
  have hf : ⌊x⌋ ≤ n := Int.floor_le_iff.2 (lt_of_le_of_lt h (by linarith))
  have hx : (⌊x⌋ : ℚ) ≤ x := Int.floor_le x
  unfold roundHalfEven
  show (if x - (⌊x⌋ : ℤ) < 1 / 2 then ⌊x⌋ else if 1 / 2 < x - (⌊x⌋ : ℤ) then ⌊x⌋ + 1
    else if ⌊x⌋ % 2 = 0 then ⌊x⌋ else ⌊x⌋ + 1) ≤ n
  by_cases hlt : x - (⌊x⌋ : ℤ) < 1 / 2
  · rw [if_pos hlt]; exact hf
  · have hne : ⌊x⌋ ≠ n := by
      intro he
      rw [he] at hlt
      apply hlt
      linarith
    have hlt2 : ⌊x⌋ + 1 ≤ n := by omega
    rw [if_neg hlt]
    split
    · exact hlt2
    · split
      · exact hf
      · exact hlt2

theorem intCast_le_roundHalfEven (x : ℚ) (n : ℤ) (h : (n : ℚ) ≤ x) : n ≤ roundHalfEven x :=
  le_trans (Int.le_floor.2 h) (roundHalfEven_floor_le x)

theorem roundHalfEven_mono (x y : ℚ) (h : x ≤ y) : roundHalfEven x ≤ roundHalfEven y := by
  rcases lt_or_eq_of_le (Int.floor_mono h) with hf | hf
  · have h1 : x ≤ ((⌊x⌋ + 1 : ℤ) : ℚ) := by
      push_cast
      exact le_of_lt (Int.lt_floor_add_one x)
    have h2 := roundHalfEven_le_of_le_intCast x (⌊x⌋ + 1) h1
    have h3 := roundHalfEven_floor_le y
    omega
  · unfold roundHalfEven
    show (if x - (⌊x⌋ : ℤ) < 1 / 2 then ⌊x⌋ else if 1 / 2 < x - (⌊x⌋ : ℤ) then ⌊x⌋ + 1
      else if ⌊x⌋ % 2 = 0 then ⌊x⌋ else ⌊x⌋ + 1) ≤
      (if y - (⌊y⌋ : ℤ) < 1 / 2 then ⌊y⌋ else if 1 / 2 < y - (⌊y⌋ : ℤ) then ⌊y⌋ + 1
      else if ⌊y⌋ % 2 = 0 then ⌊y⌋ else ⌊y⌋ + 1)
    rw [← hf]
    by_cases hx1 : x - (⌊x⌋ : ℤ) < 1 / 2
    · rw [if_pos hx1]
      split
      · exact le_rfl
      · split
        · omega
        · split <;> omega
    · have hy1 : ¬ y - (⌊x⌋ : ℤ) < 1 / 2 := by
        intro hy
        apply hx1
        linarith
      rw [if_neg hx1, if_neg hy1]
      by_cases hx2 : 1 / 2 < x - (⌊x⌋ : ℤ)
      · have hy2 : 1 / 2 < y - (⌊x⌋ : ℤ) := by linarith
        rw [if_pos hx2, if_pos hy2]
      · rw [if_neg hx2]
        split
        · split <;> omega
        · split
          · omega
          · exact le_rfl

theorem roundToPrecision_nonneg (a : ℚ) (ha : 0 ≤ a) : 0 ≤ roundToPrecision a := by
  unfold roundToPrecision
  simp only [pow2_eq]
  have hu : (0 : ℚ) < (2 : ℚ) ^ (max (binaryExponent a) (-1022) - 52) := by positivity
  have h0 : ((0 : ℤ) : ℚ) ≤ a / (2 : ℚ) ^ (max (binaryExponent a) (-1022) - 52) := by
    simpa using div_nonneg ha (le_of_lt hu)
  have h1 := intCast_le_roundHalfEven _ 0 h0
  have h2 : (0 : ℚ) ≤ (roundHalfEven (a / (2 : ℚ) ^ (max (binaryExponent a) (-1022) - 52)) : ℚ) := by
    exact_mod_cast h1
  exact mul_nonneg h2 (le_of_lt hu)

theorem roundToPrecision_mono (a b : ℚ) (ha : 0 < a) (hab : a ≤ b) :
    roundToPrecision a ≤ roundToPrecision b := by
  have hb : 0 < b := lt_of_lt_of_le ha hab
  have he := binaryExponent_mono a b ha hab
  obtain ⟨_, ha2⟩ := binaryExponent_spec a ha
  obtain ⟨hb1, _⟩ := binaryExponent_spec b hb
  unfold roundToPrecision
  simp only [pow2_eq]
  generalize hea : max (binaryExponent a) (-1022) = ea
  generalize heb : max (binaryExponent b) (-1022) = eb
  have hle : ea ≤ eb := by omega
  have hua : (0 : ℚ) < (2 : ℚ) ^ (ea - 52) := by positivity
  have hub : (0 : ℚ) < (2 : ℚ) ^ (eb - 52) := by positivity
  rcases eq_or_lt_of_le hle with heq | hlt
  · rw [← heq]
    have h1 : a / (2 : ℚ) ^ (ea - 52) ≤ b / (2 : ℚ) ^ (ea - 52) :=
      div_le_div_of_nonneg_right hab (le_of_lt hua)
    have h2 : (roundHalfEven (a / (2 : ℚ) ^ (ea - 52)) : ℚ)
        ≤ (roundHalfEven (b / (2 : ℚ) ^ (ea - 52)) : ℚ) := by
      exact_mod_cast roundHalfEven_mono _ _ h1
    exact mul_le_mul_of_nonneg_right h2 (le_of_lt hua)
  · have hebb : eb = binaryExponent b := by omega
    have hea1 : binaryExponent a + 1 ≤ ea + 1 := by omega
    have ha3 : a < (2 : ℚ) ^ (ea + 1) :=
      lt_of_lt_of_le ha2 (zpow_le_zpow_right₀ (by norm_num) hea1)
    have hb3 : (2 : ℚ) ^ eb ≤ b := by rw [hebb]; exact hb1
    have hc53 : (((2 : ℤ) ^ 53 : ℤ) : ℚ) = (2 : ℚ) ^ (53 : ℤ) := by norm_num
    have hc52 : (((2 : ℤ) ^ 52 : ℤ) : ℚ) = (2 : ℚ) ^ (52 : ℤ) := by norm_num
    have h53 : a / (2 : ℚ) ^ (ea - 52) ≤ (((2 : ℤ) ^ 53 : ℤ) : ℚ) := by
      rw [div_le_iff₀ hua]
      have : (((2 : ℤ) ^ 53 : ℤ) : ℚ) * (2 : ℚ) ^ (ea - 52) = (2 : ℚ) ^ (ea + 1) := by
        rw [hc53, ← zpow_add₀ (by norm_num)]
        congr 1
        omega
      rw [this]
      exact le_of_lt ha3
    have h52 : (((2 : ℤ) ^ 52 : ℤ) : ℚ) ≤ b / (2 : ℚ) ^ (eb - 52) := by
      rw [le_div_iff₀ hub]
      have : (((2 : ℤ) ^ 52 : ℤ) : ℚ) * (2 : ℚ) ^ (eb - 52) = (2 : ℚ) ^ eb := by
        rw [hc52, ← zpow_add₀ (by norm_num)]
        congr 1
        omega
      rw [this]
      exact hb3
    have r1 := roundHalfEven_le_of_le_intCast _ _ h53
    have r2 := intCast_le_roundHalfEven _ _ h52
    have r1q : (roundHalfEven (a / (2 : ℚ) ^ (ea - 52)) : ℚ) ≤ (2 : ℚ) ^ (53 : ℤ) := by
      rw [← hc53]
      exact_mod_cast r1
    have r2q : (2 : ℚ) ^ (52 : ℤ) ≤ (roundHalfEven (b / (2 : ℚ) ^ (eb - 52)) : ℚ) := by
      rw [← hc52]
      exact_mod_cast r2
    calc (roundHalfEven (a / (2 : ℚ) ^ (ea - 52)) : ℚ) * (2 : ℚ) ^ (ea - 52)
        ≤ (2 : ℚ) ^ (53 : ℤ) * (2 : ℚ) ^ (ea - 52) :=
          mul_le_mul_of_nonneg_right r1q (le_of_lt hua)
      _ = (2 : ℚ) ^ (ea + 1) := by
          rw [← zpow_add₀ (by norm_num)]
          congr 1
          omega
      _ ≤ (2 : ℚ) ^ eb := zpow_le_zpow_right₀ (by norm_num) (by omega)
      _ = (2 : ℚ) ^ (52 : ℤ) * (2 : ℚ) ^ (eb - 52) := by
          rw [← zpow_add₀ (by norm_num)]
          congr 1
          omega
      _ ≤ (roundHalfEven (b / (2 : ℚ) ^ (eb - 52)) : ℚ) * (2 : ℚ) ^ (eb - 52) :=
          mul_le_mul_of_nonneg_right r2q (le_of_lt hub)

theorem roundedValue_mono (p q : ℚ) (h : p ≤ q) : roundedValue p ≤ roundedValue q := by
  unfold roundedValue
  by_cases hp : p < 0
  · rw [if_pos hp]
    have h1 : 0 ≤ roundToPrecision (-p) := roundToPrecision_nonneg _ (by linarith)
    by_cases hq : q < 0
    · rw [if_pos hq]
      have := roundToPrecision_mono (-q) (-p) (by linarith) (by linarith)
      linarith
    · rw [if_neg hq]
      split
      · linarith
      · have := roundToPrecision_nonneg q (by linarith)
        linarith
  · have hq : ¬ q < 0 := by
      intro hq
      apply hp
      linarith
    rw [if_neg hp, if_neg hq]
    by_cases hp0 : p = 0
    · rw [if_pos hp0]
      split
      · exact le_rfl
      · exact roundToPrecision_nonneg q (by linarith)
    · have hppos : 0 < p := lt_of_le_of_ne (not_lt.1 hp) (Ne.symm hp0)
      have hq0 : q ≠ 0 := by
        intro h0
        rw [h0] at h
        linarith
      rw [if_neg hp0, if_neg hq0]
      exact roundToPrecision_mono p q hppos h

theorem toDouble_finite_iff (q r : ℚ) :
    toDouble q = .finite r ↔ roundedValue q = r ∧ |r| < (2 : ℚ) ^ (1024 : ℤ) := by
  unfold toDouble
  simp only [pow2_eq]
  constructor
  · intro h
    split at h
    · cases h
    · rename_i hlt
      injection h with h
      subst h
      exact ⟨rfl, not_le.1 hlt⟩
  · rintro ⟨h1, h2⟩
    subst h1
    rw [if_neg (not_le.2 h2)]

/-- Rounding to a double keeps the order: a number between two numbers whose
doubles are finite has a finite double between theirs. -/
theorem toDouble_between (p q s rp rs : ℚ) (hp : toDouble p = .finite rp)
    (hs : toDouble s = .finite rs) (h1 : p ≤ q) (h2 : q ≤ s) :
    ∃ r : ℚ, toDouble q = .finite r ∧ rp ≤ r ∧ r ≤ rs := by
  obtain ⟨hp1, hp2⟩ := (toDouble_finite_iff p rp).1 hp
  obtain ⟨hs1, hs2⟩ := (toDouble_finite_iff s rs).1 hs
  have hl : rp ≤ roundedValue q := hp1 ▸ roundedValue_mono p q h1
  have hu : roundedValue q ≤ rs := hs1 ▸ roundedValue_mono q s h2
  refine ⟨roundedValue q, (toDouble_finite_iff q _).2 ⟨rfl, ?_⟩, hl, hu⟩
  rw [abs_lt] at hp2 hs2 ⊢
  constructor <;> linarith [hp2.1, hp2.2, hs2.1, hs2.2]

/-- The value read for a chart point is never `NaN`. -/
theorem chart_value_ne_nan (d : JsonObject) (metric : String) :
    SimpleLineChart.value d metric ≠ .nan := by
  unfold SimpleLineChart.value JsNumber.orElse
  split
  · simp
  · simp
  · split <;> simp

theorem JsNumber.max_ne_nan (a b : JsNumber) (ha : a ≠ .nan) (hb : b ≠ .nan) :
    JsNumber.max a b ≠ .nan := by
  cases a with
  | nan => exact absurd rfl ha
  | infinity n =>
    cases b with
    | nan => exact absurd rfl hb
    | infinity m => cases n <;> cases m <;> simp [JsNumber.max]
    | finite y => cases n <;> simp [JsNumber.max]
  | finite x =>
    cases b with
    | nan => exact absurd rfl hb
    | infinity m => cases m <;> simp [JsNumber.max]
    | finite y => simp [JsNumber.max]

theorem JsNumber.min_ne_nan (a b : JsNumber) (ha : a ≠ .nan) (hb : b ≠ .nan) :
    JsNumber.min a b ≠ .nan := by
  cases a with
  | nan => exact absurd rfl ha
  | infinity n =>
    cases b with
    | nan => exact absurd rfl hb
    | infinity m => cases n <;> cases m <;> simp [JsNumber.min]
    | finite y => cases n <;> simp [JsNumber.min]
  | finite x =>
    cases b with
    | nan => exact absurd rfl hb
    | infinity m => cases m <;> simp [JsNumber.min]
    | finite y => simp [JsNumber.min]

theorem JsNumber.max_top_left (b : JsNumber) (hb : b ≠ .nan) :
    JsNumber.max (.infinity false) b = .infinity false := by
  cases b with
  | nan => exact absurd rfl hb
  | infinity m => cases m <;> simp [JsNumber.max]
  | finite y => simp [JsNumber.max]

theorem JsNumber.max_top_right (a : JsNumber) (ha : a ≠ .nan) :
    JsNumber.max a (.infinity false) = .infinity false := by
  cases a with
  | nan => exact absurd rfl ha
  | infinity m => cases m <;> simp [JsNumber.max]
  | finite y => simp [JsNumber.max]

theorem JsNumber.min_bot_left (b : JsNumber) (hb : b ≠ .nan) :
    JsNumber.min (.infinity true) b = .infinity true := by
  cases b with
  | nan => exact absurd rfl hb
  | infinity m => cases m <;> simp [JsNumber.min]
  | finite y => simp [JsNumber.min]

theorem JsNumber.min_bot_right (a : JsNumber) (ha : a ≠ .nan) :
    JsNumber.min a (.infinity true) = .infinity true := by
  cases a with
  | nan => exact absurd rfl ha
  | infinity m => cases m <;> simp [JsNumber.min]
  | finite y => simp [JsNumber.min]

theorem foldl_max_ne_nan (l : List JsNumber) (hl : ∀ x ∈ l, x ≠ .nan) :
    ∀ a : JsNumber, a ≠ .nan → l.foldl JsNumber.max a ≠ .nan := by
  induction l with
  | nil => intro a ha; simpa using ha
  | cons x xs ih =>
    intro a ha
    rw [List.foldl_cons]
    exact ih (fun y hy => hl y (List.mem_cons_of_mem _ hy)) _
      (JsNumber.max_ne_nan a x ha (hl x (List.mem_cons_self _ _)))

theorem foldl_min_ne_nan (l : List JsNumber) (hl : ∀ x ∈ l, x ≠ .nan) :
    ∀ a : JsNumber, a ≠ .nan → l.foldl JsNumber.min a ≠ .nan := by
  induction l with
  | nil => intro a ha; simpa using ha
  | cons x xs ih =>
    intro a ha
    rw [List.foldl_cons]
    exact ih (fun y hy => hl y (List.mem_cons_of_mem _ hy)) _
      (JsNumber.min_ne_nan a x ha (hl x (List.mem_cons_self _ _)))

theorem foldl_max_top (l : List JsNumber) (hl : ∀ x ∈ l, x ≠ .nan) :
    ∀ a : JsNumber, a ≠ .nan → (a = .infinity false ∨ .infinity false ∈ l) →
      l.foldl JsNumber.max a = .infinity false := by
  induction l with
  | nil =>
    intro a _ h
    rcases h with h | h
    · simpa using h
    · simp at h
  | cons x xs ih =>
    intro a ha h
    rw [List.foldl_cons]
    have hx := hl x (List.mem_cons_self _ _)
    apply ih (fun y hy => hl y (List.mem_cons_of_mem _ hy)) _ (JsNumber.max_ne_nan a x ha hx)
    rcases h with h | h
    · left
      rw [h]
      exact JsNumber.max_top_left x hx
    · rcases List.mem_cons.1 h with h | h
      · left
        rw [← h]
        exact JsNumber.max_top_right a ha
      · right
        exact h

theorem foldl_min_bot (l : List JsNumber) (hl : ∀ x ∈ l, x ≠ .nan) :
    ∀ a : JsNumber, a ≠ .nan → (a = .infinity true ∨ .infinity true ∈ l) →
      l.foldl JsNumber.min a = .infinity true := by
  induction l with
  | nil =>
    intro a _ h
    rcases h with h | h
    · simpa using h
    · simp at h
  | cons x xs ih =>
    intro a ha h
    rw [List.foldl_cons]
    have hx := hl x (List.mem_cons_self _ _)
    apply ih (fun y hy => hl y (List.mem_cons_of_mem _ hy)) _ (JsNumber.min_ne_nan a x ha hx)
    rcases h with h | h
    · left
      rw [h]
      exact JsNumber.min_bot_left x hx
    · rcases List.mem_cons.1 h with h | h
      · left
        rw [← h]
        exact JsNumber.min_bot_right a ha
      · right
        exact h

/-- The maximum of values without `NaN` and a final finite number is plus
infinity or finite. -/
theorem mathMaxAll_cases (l : List JsNumber) (c : ℚ) (hl : ∀ x ∈ l, x ≠ .nan) :
    mathMaxAll (l ++ [.finite c]) = .infinity false ∨
      ∃ M : ℚ, mathMaxAll (l ++ [.finite c]) = .finite M := by
  unfold mathMaxAll
  rw [List.foldl_append]
  have h := foldl_max_ne_nan l hl (.infinity true) (by simp)
  cases hf : l.foldl JsNumber.max (.infinity true) with
  | nan => exact absurd hf h
  | infinity n => cases n <;> simp [JsNumber.max]
  | finite x => simp [JsNumber.max]

/-- The minimum of values without `NaN` and a final finite number is minus
infinity or finite. -/
theorem mathMinAll_cases (l : List JsNumber) (c : ℚ) (hl : ∀ x ∈ l, x ≠ .nan) :
    mathMinAll (l ++ [.finite c]) = .infinity true ∨
      ∃ m : ℚ, mathMinAll (l ++ [.finite c]) = .finite m := by
  unfold mathMinAll
  rw [List.foldl_append]
  have h := foldl_min_ne_nan l hl (.infinity false) (by simp)
  cases hf : l.foldl JsNumber.min (.infinity false) with
  | nan => exact absurd hf h
  | infinity n => cases n <;> simp [JsNumber.min]
  | finite x => simp [JsNumber.min]

/-- A list of values without `NaN` is a list of finite numbers or has an
infinity. -/
theorem finite_or_infinity_mem (l : List JsNumber) (hl : ∀ x ∈ l, x ≠ .nan) :
    (∃ qs : List ℚ, l = qs.map JsNumber.finite) ∨ ∃ n, JsNumber.infinity n ∈ l := by
  induction l with
  | nil => exact Or.inl ⟨[], rfl⟩
  | cons x xs ih =>
    rcases ih (fun y hy => hl y (List.mem_cons_of_mem _ hy)) with ⟨qs, hqs⟩ | ⟨n, hn⟩
    · cases x with
      | nan => exact absurd rfl (hl _ (List.mem_cons_self _ _))
      | infinity n => exact Or.inr ⟨n, List.mem_cons_self _ _⟩
      | finite q => exact Or.inl ⟨q :: qs, by simp [hqs]⟩
    · exact Or.inr ⟨n, List.mem_cons_of_mem _ hn⟩

/-- An infinite value among those drawn makes the range infinite. -/
theorem range_infinite_of_infinite_value (data : List JsonObject) (metric : String) (n : Bool)
    (h : JsNumber.infinity n ∈ SimpleLineChart.values data metric) :
    SimpleLineChart.range data metric = .infinity false := by
  have hl : ∀ x ∈ SimpleLineChart.values data metric, x ≠ .nan := by
    intro x hx
    simp only [SimpleLineChart.values, List.mem_map] at hx
    obtain ⟨d, _, rfl⟩ := hx
    exact chart_value_ne_nan d metric
  have hl1 : ∀ x ∈ SimpleLineChart.values data metric ++ [JsNumber.finite 1], x ≠ .nan := by
    intro x hx
    rcases List.mem_append.1 hx with hx | hx
    · exact hl x hx
    · simp at hx
      simp [hx]
  have hl0 : ∀ x ∈ SimpleLineChart.values data metric ++ [JsNumber.finite 0], x ≠ .nan := by
    intro x hx
    rcases List.mem_append.1 hx with hx | hx
    · exact hl x hx
    · simp at hx
      simp [hx]
  unfold SimpleLineChart.range SimpleLineChart.maxValue SimpleLineChart.minValue
  cases n with
  | false =>
    have hmax : mathMaxAll (SimpleLineChart.values data metric ++ [JsNumber.finite 1])
        = .infinity false :=
      foldl_max_top _ hl1 _ (by simp) (Or.inr (List.mem_append_left _ h))
    rw [hmax]
    rcases mathMinAll_cases _ 0 hl with hmin | ⟨m, hmin⟩
    · rw [hmin]
      rfl
    · rw [hmin]
      rfl
  | true =>
    have hmin : mathMinAll (SimpleLineChart.values data metric ++ [JsNumber.finite 0])
        = .infinity true :=
      foldl_min_bot _ hl0 _ (by simp) (Or.inr (List.mem_append_left _ h))
    rw [hmin]
    rcases mathMaxAll_cases _ 1 hl with hmax | ⟨M, hmax⟩
    · rw [hmax]
      rfl
    · rw [hmax]
      rfl

/-- C27, as stated, fails: for a record whose metric is the string "Infinity"
the maximum and the range are infinite and the height of its bar is
Infinity / Infinity * 140 + 10, which is `NaN`; and for the two finite values
1e308 and -1e308 the range 1e308 - (-1e308) overflows to Infinity, so that the
first bar has the height `NaN`. -/
theorem chart_heights_counterexample :
    SimpleLineChart.range [[("Total_kW", .str "Infinity")]] "Total_kW" = .infinity false ∧
    SimpleLineChart.heights [[("Total_kW", .str "Infinity")]] "Total_kW" = [.nan] ∧
    SimpleLineChart.range
      [[("Total_kW", .str "1e308")], [("Total_kW", .str "-1e308")]] "Total_kW"
      = .infinity false ∧
    SimpleLineChart.heights
      [[("Total_kW", .str "1e308")], [("Total_kW", .str "-1e308")]] "Total_kW"
      = [.nan, .finite 10] := by
  decide!

/-- C27, amended. For every history and every metric whose range
`maxValue - minValue`, over the records drawn, is not an infinity (no value
drawn is read as Infinity or -Infinity, and the difference does not overflow):
`SimpleLineChart` draws at most the last 10 records, the range is a finite
number that is at least 1, so that nothing is divided by zero, and every bar
has a finite height between 10 and 150 pixels, in the double arithmetic of the
program; a value that is not numeric counts as 0. -/
theorem chart_heights_bounded (data : List JsonObject) (metric : String)
    (hrange : ∀ n, SimpleLineChart.range data metric ≠ .infinity n) :
    (SimpleLineChart.heights data metric).length = min 10 data.length ∧
    (∃ R : ℚ, SimpleLineChart.range data metric = .finite R ∧ 1 ≤ R) ∧
    (∀ h ∈ SimpleLineChart.heights data metric,
      ∃ q : ℚ, h = .finite q ∧ 10 ≤ q ∧ q ≤ 150) ∧
    (∀ d : JsonObject, parseFloatProperty (d.get metric) = .nan →
      SimpleLineChart.value d metric = .finite 0) := by
  have hl : ∀ x ∈ SimpleLineChart.values data metric, x ≠ .nan := by
    intro x hx
    simp only [SimpleLineChart.values, List.mem_map] at hx
    obtain ⟨d, _, rfl⟩ := hx
    exact chart_value_ne_nan d metric
  rcases finite_or_infinity_mem _ hl with ⟨qs, hqs⟩ | ⟨n, hn⟩
  swap
  · exact absurd (range_infinite_of_infinite_value data metric n hn) (hrange false)
  obtain ⟨M, hM, h1M, hqM⟩ := mathMaxAll_finite 1 qs
  obtain ⟨m, hm, hm0, hmq⟩ := mathMinAll_finite 0 qs
  have hmax : SimpleLineChart.maxValue data metric = .finite M := by
    simp only [SimpleLineChart.maxValue, hqs, hM]
  have hmin : SimpleLineChart.minValue data metric = .finite m := by
    simp only [SimpleLineChart.minValue, hqs, hm]
  have h0 : toDouble 0 = .finite 0 := by decide!
  have h1 : toDouble 1 = .finite 1 := by decide!
  have h10 : toDouble 10 = .finite 10 := by decide!
  have h140 : toDouble 140 = .finite 140 := by decide!
  have h150 : toDouble 150 = .finite 150 := by decide!
  have hsub : (SimpleLineChart.maxValue data metric).sub (SimpleLineChart.minValue data metric)
      = .finite (M - m) := by
    simp only [hmax, hmin, JsNumber.sub, JsNumber.neg, JsNumber.add]
    rw [← sub_eq_add_neg]
  have hrange2 : SimpleLineChart.range data metric = (toDouble (M - m)).orElse (.finite 1) := by
    unfold SimpleLineChart.range
    rw [hsub]
    rfl
  obtain ⟨R, hR⟩ : ∃ R : ℚ, toDouble (M - m) = .finite R := by
    cases hd : toDouble (M - m) with
    | nan =>
      unfold toDouble at hd
      dsimp only at hd
      split at hd <;> cases hd
    | infinity n =>
      rw [hd] at hrange2
      exact absurd hrange2 (hrange n)
    | finite R => exact ⟨R, rfl⟩
  obtain ⟨R2, hR2, hR1, _⟩ := toDouble_between 1 (M - m) (M - m) 1 R h1 hR (by linarith) le_rfl
  have hRR : R2 = R := JsNumber.finite.inj (hR2.symm.trans hR)
  rw [hRR] at hR1
  have hR0 : R ≠ 0 := by linarith
  have hrange3 : SimpleLineChart.range data metric = .finite R := by
    rw [hrange2, hR]
    simp [JsNumber.orElse, hR0]
  refine ⟨?_, ⟨R, hrange3, hR1⟩, ?_, ?_⟩
  · simp [SimpleLineChart.heights, SimpleLineChart.recentData, sliceLast_length]
  · intro h hh
    simp only [SimpleLineChart.heights, List.mem_map] at hh
    obtain ⟨point, hpoint, rfl⟩ := hh
    have hvmem : SimpleLineChart.value point metric ∈ qs.map JsNumber.finite := by
      rw [← hqs]
      exact List.mem_map.2 ⟨point, hpoint, rfl⟩
    obtain ⟨q, hq, hv⟩ := List.mem_map.1 hvmem
    obtain ⟨a, ha, ha0, haR⟩ := toDouble_between 0 (q - m) (M - m) 0 R h0 hR
      (by linarith [hmq q hq]) (by linarith [hqM q hq])
    have hratio0 : 0 ≤ a / R := div_nonneg ha0 (by linarith)
    have hratio1 : a / R ≤ 1 := by
      rw [div_le_one (by linarith)]
      exact haR
    obtain ⟨b, hb, hb0, hb1⟩ := toDouble_between 0 (a / R) 1 0 1 h0 h1 hratio0 hratio1
    obtain ⟨c, hc, hc0, hc140⟩ := toDouble_between 0 (b * 140) 140 0 140 h0 h140
      (by linarith) (by linarith)
    obtain ⟨e, he, he10, he150⟩ := toDouble_between 10 (c + 10) 150 10 150 h10 h150
      (by linarith) (by linarith)
    refine ⟨e, ?_, he10, he150⟩
    simp only [← hv, hmin, hrange3, JsNumber.sub, JsNumber.neg, JsNumber.add, JsNumber.div,
      JsNumber.mul, JsNumber.rounded, ← sub_eq_add_neg, ha, hb, hc, he, if_neg hR0]
  · intro d hd
    simp [SimpleLineChart.value, parseFloatDouble, JsNumber.rounded, hd, JsNumber.orElse]

/-- Witness of the amended C27: four records with the values 1, 5, x and -3
have the finite range 8 and give the heights 80, 150, 62.5 and 10. -/
theorem chart_heights_bounded_witness :
    (∀ n, SimpleLineChart.range
      [[("pv", .str "1")], [("pv", .str "5")], [("pv", .str "x")], [("pv", .str "-3")]] "pv"
      ≠ .infinity n) ∧
    SimpleLineChart.heights
      [[("pv", .str "1")], [("pv", .str "5")], [("pv", .str "x")], [("pv", .str "-3")]] "pv"
      = [.finite 80, .finite 150, .finite (125 / 2), .finite 10] ∧
    ∀ h ∈ SimpleLineChart.heights
      [[("pv", .str "1")], [("pv", .str "5")], [("pv", .str "x")], [("pv", .str "-3")]] "pv",
      ∃ q : ℚ, h = .finite q ∧ 10 ≤ q ∧ q ≤ 150 :=
  ⟨by decide!, by decide!,
    (chart_heights_bounded
      [[("pv", .str "1")], [("pv", .str "5")], [("pv", .str "x")], [("pv", .str "-3")]] "pv"
      (by decide!)).2.2.1⟩

/-- A firing of the auto mode interval that does not snap to the target moves
the level by 1.5 towards it and changes neither the target, the mode, the
running flag nor the emergency stop. -/
theorem autoTick_move (s : CylinderState) (random1 random2 : ℚ)
    (hguard : s.operationMode = "Auto" ∧ s.isRunning = true ∧ s.emergencyStop = false)
    (hfar : jsLt (jsAbs (jsSub s.targetLevel s.extensionLevel)) (some (1 / 2)) = false) :
    (CylinderStatus.autoTick s random1 random2).extensionLevel =
      jsAdd s.extensionLevel
        (some (if jsGt (jsSub s.targetLevel s.extensionLevel) (some 0) then 3 / 2
          else -(3 / 2))) ∧
    (CylinderStatus.autoTick s random1 random2).targetLevel = s.targetLevel ∧
    (CylinderStatus.autoTick s random1 random2).operationMode = s.operationMode ∧
    (CylinderStatus.autoTick s random1 random2).isRunning = s.isRunning ∧
    (CylinderStatus.autoTick s random1 random2).emergencyStop = s.emergencyStop := by
  unfold CylinderStatus.autoTick
  rw [if_pos hguard]
  dsimp only
  split
  · rename_i hnear
    rw [hfar] at hnear
    exact absurd hnear (by decide)
  · exact ⟨rfl, rfl, rfl, rfl, rfl⟩

/-- With the target 25 the auto mode step alternates between the levels 24 and
25.5, and keeps running. -/
theorem autoRun_alternates (randoms : List (ℚ × ℚ)) :
    ∀ s : CylinderState, s.operationMode = "Auto" → s.isRunning = true →
      s.emergencyStop = false → s.targetLevel = some 25 →
      (s.extensionLevel = some 24 →
        (CylinderStatus.autoRun s randoms).isRunning = true ∧
        (CylinderStatus.autoRun s randoms).extensionLevel =
          (if randoms.length % 2 = 0 then some 24 else some (51 / 2))) ∧
      (s.extensionLevel = some (51 / 2) →
        (CylinderStatus.autoRun s randoms).isRunning = true ∧
        (CylinderStatus.autoRun s randoms).extensionLevel =
          (if randoms.length % 2 = 0 then some (51 / 2) else some 24)) := by
  induction randoms with
  | nil =>
    intro s _ hrun _ _
    exact ⟨fun hl => ⟨hrun, by simpa [CylinderStatus.autoRun] using hl⟩,
      fun hl => ⟨hrun, by simpa [CylinderStatus.autoRun] using hl⟩⟩
  | cons r rest ih =>
    intro s hmode hrun hstop ht
    have hstep : ∀ l : ℚ, s.extensionLevel = some l → (l = 24 ∨ l = 51 / 2) →
        (CylinderStatus.autoTick s r.1 r.2).operationMode = "Auto" ∧
        (CylinderStatus.autoTick s r.1 r.2).isRunning = true ∧
        (CylinderStatus.autoTick s r.1 r.2).emergencyStop = false ∧
        (CylinderStatus.autoTick s r.1 r.2).targetLevel = some 25 ∧
        (CylinderStatus.autoTick s r.1 r.2).extensionLevel =
          some (if l = 24 then 51 / 2 else 24) := by
      intro l hl hcase
      have hfar : jsLt (jsAbs (jsSub s.targetLevel s.extensionLevel)) (some (1 / 2))
          = false := by
        rw [ht, hl]
        simp only [jsSub, jsAbs, Option.map_some', jsLt, decide_eq_false_iff_not]
        rcases hcase with h | h <;> rw [h] <;> norm_num [abs_of_neg]
      obtain ⟨he, htg, hm, hr, hs⟩ := autoTick_move s r.1 r.2 ⟨hmode, hrun, hstop⟩ hfar
      refine ⟨hm.trans hmode, hr.trans hrun, hs.trans hstop, htg.trans ht, ?_⟩
      rw [he, ht, hl]
      rcases hcase with h | h <;> rw [h] <;> simp only [jsSub, jsGt, jsAdd] <;> norm_num
    constructor
    · intro hl
      obtain ⟨hm, hr, hs, htg, he⟩ := hstep 24 hl (Or.inl rfl)
      have := (ih _ hm hr hs htg).2 (by simpa using he)
      simp only [CylinderStatus.autoRun, List.foldl_cons] at this ⊢
      refine ⟨this.1, ?_⟩
      rw [this.2]
      by_cases hp : rest.length % 2 = 0
      · have hq : ¬ (rest.length + 1) % 2 = 0 := by omega
        simp only [List.length_cons, if_pos hp, if_neg hq]
      · have hq : (rest.length + 1) % 2 = 0 := by omega
        simp only [List.length_cons, if_neg hp, if_pos hq]
    · intro hl
      obtain ⟨hm, hr, hs, htg, he⟩ := hstep (51 / 2) hl (Or.inr rfl)
      have he2 : (CylinderStatus.autoTick s r.1 r.2).extensionLevel = some 24 := by
        rw [he]
        norm_num
      have := (ih _ hm hr hs htg).1 he2
      simp only [CylinderStatus.autoRun, List.foldl_cons] at this ⊢
      refine ⟨this.1, ?_⟩
      rw [this.2]
      by_cases hp : rest.length % 2 = 0
      · have hq : ¬ (rest.length + 1) % 2 = 0 := by omega
        simp only [List.length_cons, if_pos hp, if_neg hq]
      · have hq : (rest.length + 1) % 2 = 0 := by omega
        simp only [List.length_cons, if_neg hp, if_pos hq]

/-- C28. The auto mode step does not always reach the target: from the level 24
with the target 25 (both within [0, 100]), mode Auto, running, emergency stop
off, after any number of firings of the interval the level is 24 or 25.5, by
turns, never the target 25, and the cylinder is still running. -/
theorem auto_mode_never_settles (randoms : List (ℚ × ℚ)) (s : CylinderState)
    (hmode : s.operationMode = "Auto") (hrun : s.isRunning = true)
    (hstop : s.emergencyStop = false) (hl : s.extensionLevel = some 24)
    (ht : s.targetLevel = some 25) :
    (CylinderStatus.autoRun s randoms).isRunning = true ∧
    (CylinderStatus.autoRun s randoms).extensionLevel =
      (if randoms.length % 2 = 0 then some 24 else some (51 / 2)) ∧
    (CylinderStatus.autoRun s randoms).extensionLevel ≠ some 25 := by
  have h := (autoRun_alternates randoms s hmode hrun hstop ht).1 hl
  refine ⟨h.1, h.2, ?_⟩
  rw [h.2]
  by_cases hp : randoms.length % 2 = 0
  · simp only [hp, if_true]
    intro hc
    have : (24 : ℚ) = 25 := Option.some.inj hc
    norm_num at this
  · simp only [hp, if_false]
    intro hc
    have : (51 / 2 : ℚ) = 25 := Option.some.inj hc
    norm_num at this

/-- Witness of C28: three firings from the level 24 leave the level 25.5 and
the cylinder running. -/
theorem auto_mode_never_settles_witness :
    (CylinderStatus.autoRun
      { CylinderState.initial with
        operationMode := "Auto", isRunning := true, extensionLevel := some 24 }
      [(0, 0), (1 / 2, 1 / 2), (0, 0)]).extensionLevel = some (51 / 2) ∧
    (CylinderStatus.autoRun
      { CylinderState.initial with
        operationMode := "Auto", isRunning := true, extensionLevel := some 24 }
      [(0, 0), (1 / 2, 1 / 2), (0, 0)]).isRunning = true :=
  have h := auto_mode_never_settles [(0, 0), (1 / 2, 1 / 2), (0, 0)]
    { CylinderState.initial with
      operationMode := "Auto", isRunning := true, extensionLevel := some 24 }
    rfl rfl rfl rfl rfl
  ⟨h.2.1, h.1⟩

/-- One extend or retract command, with emergency stop off and a target in
[0, 100], leaves emergency stop off and the target in [0, 100]. -/
theorem target_command_bounded (s : CylinderState) (c : TargetCommand) (t : ℚ)
    (hstop : s.emergencyStop = false) (ht : s.targetLevel = some t)
    (h0 : 0 ≤ t) (h100 : t ≤ 100) :
    ∃ u : ℚ,
      (CylinderStatus.runCommands s [c]).targetLevel = some u ∧ 0 ≤ u ∧ u ≤ 100 ∧
      (CylinderStatus.runCommands s [c]).emergencyStop = false := by
  cases c with
  | extend =>
    refine ⟨min (t + 10) 100, ?_, le_min (by linarith) (by norm_num), min_le_right _ _, ?_⟩
    · simp [CylinderStatus.runCommands, CylinderStatus.handleExtend, hstop, ht, jsAdd, mathMin]
    · simp [CylinderStatus.runCommands, CylinderStatus.handleExtend, hstop]
  | retract =>
    refine ⟨max (t - 10) 0, ?_, le_max_right _ _, max_le (by linarith) (by norm_num), ?_⟩
    · simp [CylinderStatus.runCommands, CylinderStatus.handleRetract, hstop, ht, jsSub, mathMax]
    · simp [CylinderStatus.runCommands, CylinderStatus.handleRetract, hstop]

theorem runCommands_bounded (commands : List TargetCommand) :
    ∀ (s : CylinderState) (t : ℚ), s.emergencyStop = false → s.targetLevel = some t →
      0 ≤ t → t ≤ 100 →
      ∃ u : ℚ, (CylinderStatus.runCommands s commands).targetLevel = some u ∧
        0 ≤ u ∧ u ≤ 100 := by
  induction commands with
  | nil => intro s t _ ht h0 h100; exact ⟨t, ht, h0, h100⟩
  | cons c rest ih =>
    intro s t hstop ht h0 h100
    obtain ⟨u, hu, hu0, hu100, hstop2⟩ := target_command_bounded s c t hstop ht h0 h100
    simp only [CylinderStatus.runCommands, List.foldl_cons, List.foldl_nil] at hu hstop2 ⊢
    exact ih _ u hstop2 hu hu0 hu100

/-- C29. With emergency stop off and a target level t in [0, 100],
`handleExtend` sets the target to min(t + 10, 100) and `handleRetract` to
max(t - 10, 0), and after any sequence of extend and retract commands the
target is still a number in [0, 100]. -/
theorem target_stays_in_range (s : CylinderState) (t : ℚ)
    (hstop : s.emergencyStop = false) (ht : s.targetLevel = some t)
    (h0 : 0 ≤ t) (h100 : t ≤ 100) :
    (CylinderStatus.handleExtend s).targetLevel = some (min (t + 10) 100) ∧
    (CylinderStatus.handleRetract s).targetLevel = some (max (t - 10) 0) ∧
    ∀ commands : List TargetCommand,
      ∃ u : ℚ, (CylinderStatus.runCommands s commands).targetLevel = some u ∧
        0 ≤ u ∧ u ≤ 100 := by
  refine ⟨?_, ?_, fun commands => runCommands_bounded commands s t hstop ht h0 h100⟩
  · simp [CylinderStatus.handleExtend, hstop, ht, jsAdd, mathMin]
  · simp [CylinderStatus.handleRetract, hstop, ht, jsSub, mathMax]

/-- Witness of C29: from the initial target 25, extend gives 35, retract gives
15, and ten extends followed by one retract give 90. -/
theorem target_stays_in_range_witness :
    (CylinderStatus.handleExtend CylinderState.initial).targetLevel = some 35 ∧
    (CylinderStatus.handleRetract CylinderState.initial).targetLevel = some 15 ∧
    (CylinderStatus.runCommands CylinderState.initial
      (List.replicate 10 .extend ++ [.retract])).targetLevel = some 90 :=
  have h := target_stays_in_range CylinderState.initial 25 rfl rfl (by norm_num) (by norm_num)
  ⟨h.1.trans (by norm_num), h.2.1.trans (by norm_num), by decide!⟩

/-- C30. While emergency stop is engaged, `handleExtend`, `handleRetract` and
`handleManualControl`, on every slider value, leave the whole state as it is,
so the extension level, the target level and the running flag are unchanged;
and `handleEmergencyStop` clears the running flag from every state. -/
theorem emergency_stop_blocks_controls (s : CylinderState) (hstop : s.emergencyStop = true) :
    CylinderStatus.handleExtend s = s ∧
    CylinderStatus.handleRetract s = s ∧
    (∀ value : String, CylinderStatus.handleManualControl s value = s) ∧
    (∀ commands : List TargetCommand, CylinderStatus.runCommands s commands = s) ∧
    (∀ s2 : CylinderState, (CylinderStatus.handleEmergencyStop s2).isRunning = false) := by
  have he : CylinderStatus.handleExtend s = s := by
    simp [CylinderStatus.handleExtend, hstop]
  have hr : CylinderStatus.handleRetract s = s := by
    simp [CylinderStatus.handleRetract, hstop]
  refine ⟨he, hr, ?_, ?_, fun _ => rfl⟩
  · intro value
    simp [CylinderStatus.handleManualControl, hstop]
  · intro commands
    induction commands with
    | nil => rfl
    | cons c rest ih =>
      cases c with
      | extend =>
        simp only [CylinderStatus.runCommands, List.foldl_cons, he] at ih ⊢
        exact ih
      | retract =>
        simp only [CylinderStatus.runCommands, List.foldl_cons, hr] at ih ⊢
        exact ih

/-- Witness of C30: after an emergency stop in the initial state, extend and a
move of the slider to 80 change nothing. -/
theorem emergency_stop_blocks_controls_witness :
    (CylinderStatus.handleEmergencyStop CylinderState.initial).emergencyStop = true ∧
    CylinderStatus.handleExtend (CylinderStatus.handleEmergencyStop CylinderState.initial)
      = CylinderStatus.handleEmergencyStop CylinderState.initial ∧
    CylinderStatus.handleManualControl
      (CylinderStatus.handleEmergencyStop CylinderState.initial) "80"
      = CylinderStatus.handleEmergencyStop CylinderState.initial :=
  have h := emergency_stop_blocks_controls
    (CylinderStatus.handleEmergencyStop CylinderState.initial) rfl
  ⟨rfl, h.1, h.2.2.1 "80"⟩

end WaxInjection
